import Mathlib

/-!
Shallow embedding of the libpccc DF1 link-layer daemon (src/df1d) and the
PCCC client library (src/lib), together with proofs checking the repository's
natural-language specification against the code.

Machine integers are modelled as `Nat` with explicit `% 256` (resp. bounds
below `2 ^ 16`) where the C code stores into `uint8_t`/`uint16_t`.  Buffers
(`BUF` from `common.h`, whose layout is fully determined by its uses in
`buf.c`) are lists of bytes with an append end and a read cursor.  Fallible
operations return a pair with an error flag, or an `Option`, mirroring the
C return conventions.
-/

set_option maxRecDepth 16384
set_option maxHeartbeats 1000000

namespace Libpccc

/-! ## Link layer symbols (df1.h) and client socket codes.

`SYM_*` are from `src/df1d/df1.h`.  The `MSG_*` codes live in the missing
`common.h`. -/

def SYM_STX : Nat := 0x02
def SYM_ETX : Nat := 0x03
def SYM_ENQ : Nat := 0x05
def SYM_ACK : Nat := 0x06
def SYM_NAK : Nat := 0x15
def SYM_DLE : Nat := 0x10

/-- Modelled from the spec: `common.h` is not among the sources; spec section 4.5
gives the client-socket codes `SOH` = 0x01, `MSG_ACK` = DF1 ACK = 0x06 and
`MSG_NAK` = DF1 NAK = 0x15. -/
def MSG_SOH : Nat := 0x01

/-- Modelled from the spec: see `MSG_SOH`. -/
def MSG_ACK : Nat := 0x06

/-- Modelled from the spec: see `MSG_SOH`. -/
def MSG_NAK : Nat := 0x15

/-- System tick period in microseconds (df1.h `TICK_USEC`). -/
def TICK_USEC : Nat := 10000

/-! ## Byte buffers (buf.c)

The C `BUF` has a capacity `max`, a filled length `len` and a read cursor
`index`; `data` holds `len` bytes.  We keep the bytes as a list, so
`len = data.length`. -/

structure BUF where
  max : Nat
  data : List Nat
  index : Nat
deriving Repr, DecidableEq

/-- `len` field of the C buffer: number of bytes currently stored. -/
def BUF.len (b : BUF) : Nat := b.data.length

/-- `buf_new`: a fresh, empty buffer of the given capacity. -/
def buf_new (bytes : Nat) : BUF := ⟨bytes, [], 0⟩

/-- `buf_empty`. -/
def buf_empty (b : BUF) : BUF := { b with data := [], index := 0 }

/-- `buf_append_byte`; the returned flag is the C non-zero error return.
The stored value is converted to `uint8_t`, hence the `% 256`. -/
def buf_append_byte (dst : BUF) (src : Nat) : BUF × Bool :=
  if dst.len = dst.max then (dst, true)
  else ({ dst with data := dst.data ++ [src % 256] }, false)

/-- `buf_append_word` combined with `htols` (byteorder.c): the net effect on
any host is that the 16-bit value is stored as two bytes, little-endian. -/
def buf_append_word (dst : BUF) (src : Nat) : BUF × Bool :=
  if dst.len + 2 > dst.max then (dst, true)
  else ({ dst with data := dst.data ++ [src % 256, src / 256 % 256] }, false)

/-- `buf_append_buf`: appends all `src.len` bytes of `src` (from offset 0). -/
def buf_append_buf (dst src : BUF) : BUF × Bool :=
  if dst.len + src.len > dst.max then (dst, true)
  else ({ dst with data := dst.data ++ src.data }, false)

/-- `buf_get_byte`: reads the byte at the cursor and advances it. -/
def buf_get_byte (src : BUF) : Option (Nat × BUF) :=
  if src.len = src.index then none
  else some (src.data.getD src.index 0, { src with index := src.index + 1 })

/-- `buf_get_word` combined with `ltohs`: reads two bytes little-endian. -/
def buf_get_word (src : BUF) : Option (Nat × BUF) :=
  if src.index + 2 > src.len then none
  else some (src.data.getD src.index 0 + 256 * src.data.getD (src.index + 1) 0,
             { src with index := src.index + 2 })

/-- `buf_write_ready` (buf.c): data is present and not yet fully drained. -/
def buf_write_ready (b : BUF) : Bool := b.len ≠ 0 && b.index ≠ b.len

/-! ## Checksums (df1.h `CRC_ADD` macro, BCC arithmetic) -/

/-- One shift step of the `CRC_ADD` macro body: shift right, XOR the
polynomial 0xa001 when the bit shifted out was set. -/
def crc_shift (crc : Nat) : Nat :=
  if crc % 2 = 1 then Nat.xor (crc / 2) 0xa001 else crc / 2

/-- The `CRC_ADD(i, crc, val)` macro: XOR in the byte, then 8 shift steps. -/
def CRC_ADD (crc val : Nat) : Nat := crc_shift^[8] (Nat.xor crc val)

/-- CRC of a byte list continuing from accumulator `a`. -/
def crc_fold (a : Nat) (bs : List Nat) : Nat := bs.foldl CRC_ADD a

/-- 8-bit running sum, as accumulated in the `uint8_t` BCC variables. -/
def bcc_fold (a : Nat) (bs : List Nat) : Nat :=
  bs.foldl (fun x b => (x + b) % 256) a

/-- The emitted BCC byte: `~bcc + 1` truncated to `uint8_t`, i.e. the two's
complement of the 8-bit sum. -/
def bcc_out (s : Nat) : Nat := (255 - s % 256 + 1) % 256

/-! ## df1d data model (df1.h) -/

inductive CLIENT_STATE_T
  | CLIENT_CONNECTED
  | CLIENT_REG_LEN
  | CLIENT_REG_NAME
  | CLIENT_IDLE
  | CLIENT_MSG_LEN
  | CLIENT_MSG
  | CLIENT_MSG_READY
  | CLIENT_MSG_PEND
deriving Repr, DecidableEq

open CLIENT_STATE_T

/-- Numeric value of the C enum, used for the raw `state >= CLIENT_IDLE`
comparison in `find_addr`. -/
def CLIENT_STATE_T.toNat : CLIENT_STATE_T → Nat
  | CLIENT_CONNECTED => 0
  | CLIENT_REG_LEN => 1
  | CLIENT_REG_NAME => 2
  | CLIENT_IDLE => 3
  | CLIENT_MSG_LEN => 4
  | CLIENT_MSG => 5
  | CLIENT_MSG_READY => 6
  | CLIENT_MSG_PEND => 7

structure ClientDiagCnt where
  tx_attempts : Nat := 0
  tx_success : Nat := 0
  tx_fail : Nat := 0
  sink_full : Nat := 0
  msg_rx : Nat := 0
  msg_reject : Nat := 0
  msg_accept : Nat := 0
  rx_timeouts : Nat := 0
deriving Repr, DecidableEq

/-- One TCP client of a connection (df1.h `CLIENT`).  The socket descriptor
and name are I/O identities with no bearing on the verified logic. -/
structure CLIENT where
  state : CLIENT_STATE_T
  addr : Nat
  new_msg_len : Nat := 0
  df1_tx : BUF
  sock_out : BUF
  sock_in : BUF
  dcnts : ClientDiagCnt := {}
deriving Repr, DecidableEq

instance : Inhabited CLIENT :=
  ⟨⟨CLIENT_CONNECTED, 0, 0, buf_new 512, buf_new 512, buf_new 512, {}⟩⟩

structure LinkDiagCnt where
  tx_attempts : Nat := 0
  tx_success : Nat := 0
  msg_rx : Nat := 0
  acks_in : Nat := 0
  naks_in : Nat := 0
  resp_timeouts : Nat := 0
  enqs_out : Nat := 0
  tx_fail : Nat := 0
  acks_out : Nat := 0
  naks_out : Nat := 0
  enqs_in : Nat := 0
  runts : Nat := 0
  bad_cs : Nat := 0
  unknown_dst : Nat := 0
  bytes_ignored : Nat := 0
  dups : Nat := 0
  rx_overflow : Nat := 0
deriving Repr, DecidableEq

inductive TX_STATE_T
  | TX_IDLE
  | TX_PEND_MSG_TX
  | TX_PEND_RESP
deriving Repr, DecidableEq

open TX_STATE_T

/-- Message transmitter (df1.h `TX`).  The C `CLIENT *client` back-pointer
becomes an optional index into the connection's client list; `none` models
the NULL pointer. -/
structure TX where
  state : TX_STATE_T
  max_nak : Nat
  max_enq : Nat
  nak_cnt : Nat := 0
  enq_cnt : Nat := 0
  eticks : Nat := 0
  tticks : Nat
  msg : BUF
  client : Option Nat := none
deriving Repr, DecidableEq

inductive RX_STATE_T
  | RX_IDLE
  | RX_APP
  | RX_CS1
  | RX_CS2
  | RX_PEND
deriving Repr, DecidableEq

open RX_STATE_T

/-- Message receiver (df1.h `RX`).  The `msg_cs`/`acc_cs` unions become one
natural each; the connection's fixed checksum mode selects the
interpretation (16-bit CRC or 8-bit BCC), exactly as in the C union. -/
structure RX where
  state : RX_STATE_T
  app : BUF
  dup0 : Nat := 0
  dup1 : Nat := 0
  dup2 : Nat := 0
  dup3 : Nat := 0
  eticks : Nat := 0
  tticks : Nat
  last_was_ack : Bool := false
  overflow : Bool := false
  dup_detect : Bool
  prev_dle : Bool := false
  client : Option Nat := none
  msg_cs : Nat := 0
  acc_cs : Nat := 0
deriving Repr, DecidableEq

/-- One serial connection (df1.h `CONN`).  File descriptors, device name and
baud-rate bookkeeping are dropped; the client linked list becomes a list. -/
structure CONN where
  use_crc : Bool
  read_sym : Bool := false
  embed_rsp : Bool := false
  tty_in : BUF
  tty_out : BUF
  tx : TX
  rx : RX
  clients : List CLIENT
  dcnts : LinkDiagCnt := {}
deriving Repr, DecidableEq

/-- Updates the client at position `i` (in C, mutation through a pointer). -/
def listModify {α : Type} : List α → Nat → (α → α) → List α
  | [], _, _ => []
  | a :: as, 0, f => f a :: as
  | a :: as, n + 1, f => a :: listModify as n f

def updClient (conn : CONN) (i : Nat) (f : CLIENT → CLIENT) : CONN :=
  { conn with clients := listModify conn.clients i f }

/-! ## Receiver primitives (rx.c) -/

/-- `rx_set_nak`. -/
def rx_set_nak (rx : RX) : RX := { rx with last_was_ack := false }

/-- `rx_active`: non-zero while an application message is being received. -/
def rx_active (rx : RX) : Bool :=
  !(rx.state = RX_IDLE || rx.state = RX_PEND)

/-- `rx_init`: initial receiver state.  The timeout is
`5000000 / TICK_USEC + 1` ticks. -/
def rx_init (dup_detect : Bool) : RX :=
  { state := RX_IDLE
    app := buf_new 512
    tticks := 5000000 / TICK_USEC + 1
    dup_detect := dup_detect }

/-- `tx_init`: initial transmitter state (ACK timeout in milliseconds). -/
def tx_init (max_nak max_enq ack_timeout : Nat) : TX :=
  { state := TX_IDLE
    max_nak := max_nak
    max_enq := max_enq
    tticks := ack_timeout / (TICK_USEC / 1000)
    msg := buf_new 512 }

/-- `tx_busy`. -/
def tx_busy (tx : TX) : Bool := !(tx.state = TX_IDLE)

/-- `cs_clear` (rx.c): clears the accumulated checksum. -/
def cs_clear (conn : CONN) : CONN := { conn with rx.acc_cs := 0 }

/-- `cs_add` (rx.c): folds one byte into the accumulated checksum, CRC-16 in
CRC mode, 8-bit sum in BCC mode. -/
def cs_add (conn : CONN) (x : Nat) : CONN :=
  if conn.use_crc then { conn with rx.acc_cs := CRC_ADD conn.rx.acc_cs x }
  else { conn with rx.acc_cs := (conn.rx.acc_cs + x) % 256 }

/-- `cs_ok` (rx.c): compares accumulated and received checksums; in BCC mode
the accumulated sum is finalized to its two's complement first. -/
def cs_ok (conn : CONN) : Bool :=
  if conn.use_crc then conn.rx.acc_cs = conn.rx.msg_cs
  else bcc_out conn.rx.acc_cs = conn.rx.msg_cs

/-- `rx_ack` (rx.c): queue `DLE ACK` on the TTY (short-circuit `||` of the two
appends), record the ACK, idle the receiver, drop the client back-pointer. -/
def rx_ack (conn : CONN) : CONN :=
  let (t1, e1) := buf_append_byte conn.tty_out SYM_DLE
  let (t2, _) := if e1 then (t1, true) else buf_append_byte t1 SYM_ACK
  { conn with
      tty_out := t2
      rx := { conn.rx with last_was_ack := true, state := RX_IDLE, client := none }
      dcnts.acks_out := conn.dcnts.acks_out + 1 }

/-- `rx_nak` (rx.c): queue `DLE NAK`, record the NAK, idle the receiver, drop
the client back-pointer. -/
def rx_nak (conn : CONN) : CONN :=
  let (t1, e1) := buf_append_byte conn.tty_out SYM_DLE
  let (t2, _) := if e1 then (t1, true) else buf_append_byte t1 SYM_NAK
  { conn with
      tty_out := t2
      rx := { rx_set_nak conn.rx with state := RX_IDLE, client := none }
      dcnts.naks_out := conn.dcnts.naks_out + 1 }

/-- `rx_enq` (rx.c): a peer ENQ closes out a PEND message with an ACK
(counting a client rx timeout), otherwise repeats the last response. -/
def rx_enq (conn : CONN) : CONN :=
  if conn.rx.state = RX_PEND then
    match conn.rx.client with
    | some i =>
        rx_ack (updClient conn i
          (fun c => { c with dcnts.rx_timeouts := c.dcnts.rx_timeouts + 1 }))
    | none => rx_ack conn
  else if conn.rx.last_was_ack then rx_ack conn
  else rx_nak conn

/-- `rx_tick` (rx.c): the elapsed count advances only outside `RX_IDLE` and
`RX_PEND`; past the limit the in-progress message is dropped. -/
def rx_tick (conn : CONN) : CONN :=
  if conn.rx.state = RX_IDLE || conn.rx.state = RX_PEND then conn
  else
    let conn := { conn with rx.eticks := conn.rx.eticks + 1 }
    if conn.rx.tticks < conn.rx.eticks then
      { conn with rx := { rx_set_nak conn.rx with state := RX_IDLE } }
    else conn

/-! ## Transmitter (tx.c) and client notification paths (client.c)

The C functions `find_next_tx`, `tx_msg`, `send_msg`, `send_enq`,
`client_msg_tx_ok` and `client_msg_tx_fail` are mutually recursive (a failed
send notifies the client, which asks the arbitrator for the next message,
which may start another send).  The C recursion terminates because every
pass removes one client from `CLIENT_MSG_READY`; here a `fuel` bound plays
that role. -/

/-- `flush_msg` (tx.c): reset retry counters, drop the message, idle. -/
def flush_msg (tx : TX) : TX :=
  { tx with nak_cnt := 0, enq_cnt := 0, msg := buf_empty tx.msg, state := TX_IDLE }

/-- `tx_data_sent` (tx.c): the TTY buffer fully drained. -/
def tx_data_sent (conn : CONN) : CONN :=
  if conn.tx.state = TX_PEND_MSG_TX then
    { conn with tx := { conn.tx with state := TX_PEND_RESP, eticks := 0 } }
  else conn

/-- The frame-assembly loop inside `tx_msg` (tx.c): append each application
byte (doubling DLE), accumulating the CRC or BCC, OR-ing overflow flags. -/
def tx_fold (use_crc : Bool) : List Nat → BUF → Nat → Nat → Bool → BUF × Nat × Nat × Bool
  | [], m, crc, bcc, ov => (m, crc, bcc, ov)
  | b :: bs, m, crc, bcc, ov =>
    let p1 := buf_append_byte m b
    let crc1 := if use_crc then CRC_ADD crc b else crc
    let bcc1 := if use_crc then bcc else (bcc + b) % 256
    let p2 := if b = SYM_DLE then buf_append_byte p1.1 SYM_DLE else (p1.1, false)
    tx_fold use_crc bs p2.1 crc1 bcc1 (ov || p1.2 || p2.2)

/-- The frame-assembly part of `tx_msg` (tx.c): `DLE STX`, stuffed payload,
`DLE ETX`, checksum; consumes the client's `df1_tx` and records the client.
Overflow is only logged by the C code, so the flags are dropped. -/
def tx_assemble (conn : CONN) (i : Nat) : CONN :=
  let client := conn.clients.getD i default
  let bytes := client.df1_tx.data.drop client.df1_tx.index
  let p1 := buf_append_byte conn.tx.msg SYM_DLE
  let p2 := buf_append_byte p1.1 SYM_STX
  let r := tx_fold conn.use_crc bytes p2.1 0 0 (p1.2 || p2.2)
  let conn := updClient conn i
    (fun c => { c with df1_tx.index := c.df1_tx.data.length })
  let p4 := buf_append_byte r.1 SYM_DLE
  let p5 := buf_append_byte p4.1 SYM_ETX
  let p6 := if conn.use_crc then buf_append_word p5.1 (CRC_ADD r.2.1 SYM_ETX)
            else buf_append_byte p5.1 (bcc_out r.2.2.1)
  { conn with tx := { conn.tx with msg := p6.1, client := some i } }

mutual

/-- `find_next_tx` (client.c): round-robin scan, starting after the client
most recently serviced, for a client in `CLIENT_MSG_READY`; its message is
handed to the transmitter, its buffer emptied and its state advanced.
Each function of this block consumes one unit of `fuel` per call, so the
recursion is structural; any `fuel` larger than the call depth (bounded in C
by the number of ready clients) gives the C behaviour. -/
def find_next_tx : Nat → CONN → Option Nat → CONN
  | 0, conn, _ => conn
  | fuel + 1, conn, start =>
    if tx_busy conn.tx then conn
    else if conn.clients.isEmpty then conn
    else
      let n := conn.clients.length
      let s := match start with
        | some s => s
        | none =>
          match conn.tx.client with
          | none => 0
          | some i => (i + 1) % n
      match ((List.range n).map (fun k => (s + k) % n)).find?
              (fun j => (conn.clients.getD j default).state == CLIENT_MSG_READY) with
      | none => conn
      | some j =>
        let conn := tx_msg fuel conn j
        updClient conn j (fun c =>
          { c with df1_tx := buf_empty c.df1_tx, state := CLIENT_MSG_PEND,
                   dcnts.tx_attempts := c.dcnts.tx_attempts + 1 })

/-- `tx_msg` (tx.c): assemble the frame, send it, count the attempt. -/
def tx_msg : Nat → CONN → Nat → CONN
  | 0, conn, _ => conn
  | fuel + 1, conn, i =>
    let conn := send_msg fuel (tx_assemble conn i)
    { conn with dcnts.tx_attempts := conn.dcnts.tx_attempts + 1 }

/-- `send_msg` (tx.c): copy the transmitter's message into the TTY output
buffer; if it cannot hold the frame the transmission fails at once. -/
def send_msg : Nat → CONN → CONN
  | 0, conn => conn
  | fuel + 1, conn =>
    let conn := { conn with tx.state := TX_PEND_MSG_TX }
    match buf_append_buf conn.tty_out conn.tx.msg with
    | (t, false) => { conn with tty_out := t }
    | (_, true) => client_msg_tx_fail fuel { conn with tx := flush_msg conn.tx }

/-- `client_msg_tx_fail` (client.c): one `MSG_NAK` byte to the originating
client (skipped for a defunct client), then ask for the next message. -/
def client_msg_tx_fail : Nat → CONN → CONN
  | 0, conn => conn
  | fuel + 1, conn =>
    let conn := match conn.tx.client with
      | some i => updClient conn i (fun c =>
          { c with sock_out := (buf_append_byte c.sock_out MSG_NAK).1,
                   state := CLIENT_IDLE,
                   dcnts.tx_fail := c.dcnts.tx_fail + 1 })
      | none => conn
    find_next_tx fuel conn none

end

/-- `send_enq` (tx.c): queue `DLE ENQ`; on a full TTY buffer the message
fails (a lone DLE that already fit stays queued, as in the C code). -/
def send_enq (fuel : Nat) (conn : CONN) : CONN :=
  let conn := { conn with tx.state := TX_PEND_MSG_TX }
  let p1 := buf_append_byte conn.tty_out SYM_DLE
  let p2 := if p1.2 then (p1.1, true) else buf_append_byte p1.1 SYM_ENQ
  if p1.2 || p2.2 then
    client_msg_tx_fail fuel { conn with tty_out := p2.1, tx := flush_msg conn.tx }
  else { conn with tty_out := p2.1 }

/-- `client_msg_tx_ok` (client.c): one `MSG_ACK` byte to the originating
client (skipped for a defunct client), then ask for the next message. -/
def client_msg_tx_ok (fuel : Nat) (conn : CONN) : CONN :=
  let conn := match conn.tx.client with
    | some i => updClient conn i (fun c =>
        { c with sock_out := (buf_append_byte c.sock_out MSG_ACK).1,
                 state := CLIENT_IDLE,
                 dcnts.tx_success := c.dcnts.tx_success + 1 })
    | none => conn
  find_next_tx fuel conn none

/-- `tx_ack` (tx.c): in `TX_PEND_RESP` the transmission succeeded; in any
other state the ACK is a protocol error. -/
def tx_ack (fuel : Nat) (conn : CONN) : CONN :=
  if conn.tx.state = TX_PEND_RESP then
    let conn := { conn with tx := flush_msg conn.tx }
    let conn := { conn with dcnts.tx_success := conn.dcnts.tx_success + 1 }
    client_msg_tx_ok fuel conn
  else
    { conn with rx := rx_set_nak conn.rx,
                dcnts.bytes_ignored := conn.dcnts.bytes_ignored + 2 }

/-- `tx_nak` (tx.c): in `TX_PEND_RESP` count the NAK and retransmit or fail;
in any other state the NAK is a protocol error. -/
def tx_nak (fuel : Nat) (conn : CONN) : CONN :=
  if conn.tx.state = TX_PEND_RESP then
    let conn := { conn with tx.nak_cnt := conn.tx.nak_cnt + 1 }
    if conn.tx.max_nak ≤ conn.tx.nak_cnt then
      let conn := { conn with tx := flush_msg conn.tx }
      let conn := { conn with dcnts.tx_fail := conn.dcnts.tx_fail + 1 }
      client_msg_tx_fail fuel conn
    else send_msg fuel conn
  else
    { conn with rx := rx_set_nak conn.rx,
                dcnts.bytes_ignored := conn.dcnts.bytes_ignored + 2 }

/-- `tx_tick` (tx.c): paused while the receiver is active unless embedded
responses were seen; in `TX_PEND_RESP` the elapsed count advances and past
the limit an ENQ is sent, or the message fails once `enq_cnt` exceeds
`max_enq`. -/
def tx_tick (fuel : Nat) (conn : CONN) : CONN :=
  if !conn.embed_rsp && rx_active conn.rx then conn
  else if conn.tx.state = TX_PEND_RESP then
    let conn := { conn with tx.eticks := conn.tx.eticks + 1 }
    if conn.tx.tticks < conn.tx.eticks then
      let conn := { conn with dcnts.resp_timeouts := conn.dcnts.resp_timeouts + 1 }
      let conn := { conn with tx.enq_cnt := conn.tx.enq_cnt + 1 }
      if conn.tx.max_enq < conn.tx.enq_cnt then
        let conn := { conn with tx := flush_msg conn.tx }
        let conn := { conn with dcnts.tx_fail := conn.dcnts.tx_fail + 1 }
        client_msg_tx_fail fuel conn
      else send_enq fuel conn
    else conn
  else conn

/-! ## Receiver state machine (rx.c) and inbound routing (client.c, conn.c) -/

/-- `embed_rsp` (rx.c): an ACK or NAK embedded in an application message is
forwarded to the transmitter; the first one latches `embed_rsp`. -/
def embed_rsp (fuel : Nat) (conn : CONN) (rsp : Nat) : CONN :=
  let conn := if !conn.embed_rsp then { conn with embed_rsp := true } else conn
  if rsp = SYM_ACK then tx_ack fuel conn else tx_nak fuel conn

/-- `add_to_app` (rx.c): one application-phase byte.  The branch structure
mirrors the C `switch` with its fall-throughs: a DLE-prefixed ETX ends the
payload (added to the checksum only in CRC mode), a first DLE just sets
`prev_dle`, DLE-prefixed ACK/NAK are embedded responses, any other
DLE-prefixed byte forces a NAK response, and everything else is appended to
the application buffer and folded into the checksum. -/
def add_to_app (fuel : Nat) (conn : CONN) (byte : Nat) : CONN :=
  if byte = SYM_ETX ∧ conn.rx.prev_dle then
    let conn := if conn.use_crc then cs_add conn SYM_ETX else conn
    { conn with rx.state := RX_CS1 }
  else if byte = SYM_DLE ∧ ¬conn.rx.prev_dle then
    { conn with rx.prev_dle := true }
  else if (byte = SYM_ACK ∨ byte = SYM_NAK) ∧ conn.rx.prev_dle then
    embed_rsp fuel { conn with rx.prev_dle := false } byte
  else if byte ≠ SYM_ETX ∧ byte ≠ SYM_DLE ∧ byte ≠ SYM_ACK ∧ byte ≠ SYM_NAK
          ∧ conn.rx.prev_dle then
    { conn with rx := rx_set_nak conn.rx }
  else
    let conn := { conn with rx.prev_dle := false }
    let conn :=
      if conn.rx.overflow then conn
      else match buf_append_byte conn.rx.app byte with
        | (app1, true) =>
            { conn with rx.app := app1, rx.overflow := true,
                        dcnts.rx_overflow := conn.dcnts.rx_overflow + 1 }
        | (app1, false) => { conn with rx.app := app1 }
    cs_add conn byte

/-- `msg_dup` (rx.c): compares the bytes at offsets 1, 2, 4, 5 of the
received payload against the stored fingerprint; the fingerprint is updated
on every call (also for duplicates), as in the source. -/
def msg_dup (conn : CONN) : CONN × Bool :=
  if !conn.rx.dup_detect then (conn, false)
  else
    let d := conn.rx.app.data
    let isDup : Bool := (d.getD 1 0 == conn.rx.dup0) && (d.getD 2 0 == conn.rx.dup1)
                     && (d.getD 4 0 == conn.rx.dup2) && (d.getD 5 0 == conn.rx.dup3)
    let conn := if isDup then { conn with dcnts.dups := conn.dcnts.dups + 1 } else conn
    ({ conn with rx.dup0 := d.getD 1 0, rx.dup1 := d.getD 2 0,
                 rx.dup2 := d.getD 4 0, rx.dup3 := d.getD 5 0 }, isDup)

/-- `find_addr` (client.c): first client with the raw comparison
`state >= CLIENT_IDLE` and a matching address, as an index. -/
def find_addr (conn : CONN) (addr : Nat) : Option Nat :=
  conn.clients.findIdx?
    (fun c => decide (CLIENT_IDLE.toNat ≤ c.state.toNat) && c.addr == addr)

/-- `client_msg_rx` (client.c): route an accepted message to the client whose
address is the first payload byte.  When the client's socket buffer cannot
hold it, a NAK is sent and `sink_full` counted — but the source then still
falls through to the append/bookkeeping path below. -/
def client_msg_rx (conn : CONN) : CONN :=
  let first := match buf_get_byte conn.rx.app with
    | some (b, a) => (b, a)
    | none => (0, conn.rx.app)
  let conn := { conn with rx.app := first.2 }
  match find_addr conn first.1 with
  | none =>
    rx_ack { conn with dcnts.unknown_dst := conn.dcnts.unknown_dst + 1 }
  | some i =>
    let client := conn.clients.getD i default
    let conn :=
      if client.sock_out.max < client.sock_out.len + conn.rx.app.len + 2 then
        let conn := rx_nak conn
        updClient conn i
          (fun c => { c with dcnts.sink_full := c.dcnts.sink_full + 1 })
      else conn
    let appBuf := conn.rx.app
    let conn := updClient conn i (fun c =>
      let s1 := (buf_append_byte c.sock_out MSG_SOH).1
      let s2 := (buf_append_byte s1 appBuf.len).1
      let s3 := (buf_append_buf s2 appBuf).1
      { c with sock_out := s3, dcnts.msg_rx := c.dcnts.msg_rx + 1 })
    { conn with rx.client := some i }

/-- `accept_msg` (rx.c): classify a completed frame — runt, bad checksum,
duplicate, or delivery to a client. -/
def accept_msg (conn : CONN) : CONN :=
  if conn.rx.app.len < 6 then
    rx_nak { conn with dcnts.runts := conn.dcnts.runts + 1 }
  else if cs_ok conn then
    let r := msg_dup conn
    if r.2 then rx_ack r.1
    else
      let conn := { r.1 with dcnts.msg_rx := r.1.dcnts.msg_rx + 1 }
      client_msg_rx { conn with rx.state := RX_PEND }
  else rx_nak { conn with dcnts.bad_cs := conn.dcnts.bad_cs + 1 }

/-- The `while` loop of `rx_msg` (rx.c), with an explicit iteration bound
(the loop consumes one TTY byte per pass).  Acceptance returns out of the
loop, as in the source. -/
def rx_msg_loop (fuel : Nat) : Nat → CONN → CONN
  | 0, conn => conn
  | gas + 1, conn =>
    match buf_get_byte conn.tty_in with
    | none => conn
    | some (byte, tin) =>
      let conn := { conn with tty_in := tin }
      match conn.rx.state with
      | RX_APP => rx_msg_loop fuel gas (add_to_app fuel conn byte)
      | RX_CS1 =>
        if conn.use_crc then
          rx_msg_loop fuel gas { conn with rx.msg_cs := byte, rx.state := RX_CS2 }
        else accept_msg { conn with rx.msg_cs := byte }
      | RX_CS2 => accept_msg { conn with rx.msg_cs := (conn.rx.msg_cs + byte * 256) % 65536 }
      | RX_IDLE => rx_msg_loop fuel gas conn
      | RX_PEND => rx_msg_loop fuel gas conn

/-- `rx_msg` (rx.c): in `RX_IDLE` a new message starts (buffers and flags
reset); then the loop consumes the TTY input. -/
def rx_msg (fuel : Nat) (conn : CONN) : CONN :=
  let conn :=
    if conn.rx.state = RX_IDLE then
      let conn := { conn with rx.app := buf_empty conn.rx.app }
      let conn := { conn with rx.eticks := 0, rx.prev_dle := false,
                              rx.overflow := false }
      { cs_clear conn with rx.state := RX_APP }
    else conn
  rx_msg_loop fuel (conn.tty_in.len - conn.tty_in.index) conn

/-- The tail of the link-level dispatch in `parse_tty_data` (conn.c): a DLE
arms `read_sym`; any other unprefixed byte is spurious. -/
def parse_link_byte (conn : CONN) (byte : Nat) : CONN :=
  if byte = SYM_DLE then { conn with read_sym := true }
  else { conn with read_sym := false, rx := rx_set_nak conn.rx,
                   dcnts.bytes_ignored := conn.dcnts.bytes_ignored + 1 }

/-- The `while (more)` loop of `parse_tty_data` (conn.c): while the receiver
is active it consumes the bytes; link-level symbols (`DLE` + STX/ENQ/ACK/NAK)
are dispatched here; a spurious byte after a DLE is counted and then falls
through to the DLE test, as in the source. -/
def parse_tty_loop (fuel : Nat) : Nat → CONN → CONN
  | 0, conn => conn
  | gas + 1, conn =>
    let conn := if rx_active conn.rx then rx_msg fuel conn else conn
    match buf_get_byte conn.tty_in with
    | none => conn
    | some (byte, tin) =>
      let conn := { conn with tty_in := tin }
      if conn.read_sym then
        let conn := { conn with read_sym := false }
        if byte = SYM_STX then parse_tty_loop fuel gas (rx_msg fuel conn)
        else if byte = SYM_ENQ then
          parse_tty_loop fuel gas
            (rx_enq { conn with dcnts.enqs_in := conn.dcnts.enqs_in + 1 })
        else if byte = SYM_ACK then
          parse_tty_loop fuel gas
            (tx_ack fuel { conn with dcnts.acks_in := conn.dcnts.acks_in + 1 })
        else if byte = SYM_NAK then
          parse_tty_loop fuel gas
            (tx_nak fuel { conn with dcnts.naks_in := conn.dcnts.naks_in + 1 })
        else
          let conn := { conn with rx := rx_set_nak conn.rx }
          let conn :=
            { conn with dcnts.bytes_ignored := conn.dcnts.bytes_ignored + 1 }
          parse_tty_loop fuel gas (parse_link_byte conn byte)
      else parse_tty_loop fuel gas (parse_link_byte conn byte)

/-- `parse_tty_data` (conn.c). -/
def parse_tty_data (fuel : Nat) (conn : CONN) : CONN :=
  parse_tty_loop fuel (conn.tty_in.len - conn.tty_in.index + 1) conn

/-! ## Address element encoding (lib/addr.c) -/

/-- `addr_encode`: values above 254 become `0xff` followed by the value as a
16-bit little-endian word (the short-circuit `||` of the C code is kept). -/
def addr_encode (dest : BUF) (addr : Nat) : BUF × Bool :=
  if 254 < addr then
    let p1 := buf_append_byte dest 0xff
    if p1.2 then (p1.1, true) else buf_append_word p1.1 addr
  else buf_append_byte dest addr

/-- `addr_decode`: reads one byte; `0xff` announces a little-endian word. -/
def addr_decode (src : BUF) : Option (Nat × BUF) :=
  match buf_get_byte src with
  | none => none
  | some (first, s1) =>
    if first = 0xff then
      match buf_get_word s1 with
      | none => none
      | some (w, s2) => some (w, s2)
    else some (first, s1)

/-! ## PCCC client library message handling (lib/private.h, msg.c, pccc.c) -/

def MSG_UNUSED : Nat := 0
def MSG_PEND : Nat := 1
def MSG_TX : Nat := 2
def MSG_ACK_RCVD : Nat := 4
def MSG_REPLY_RCVD : Nat := 8

/-- `MSG_TX | MSG_ACK_RCVD | MSG_REPLY_RCVD` (disjoint bits). -/
def MSG_CMD_DONE : Nat := MSG_TX + MSG_ACK_RCVD + MSG_REPLY_RCVD

inductive PCCC_RET_T
  | SUCCESS | WREADY | ENOCON | ELINK | EPARAM | EFATAL | EOVERFLOW
  | ECMD_NOBUF | ECMD_NODELIVER | ECMD_TIMEOUT | ECMD_REPLY
deriving Repr, DecidableEq

/-- One message slot (private.h `DF1MSG`).  The user notification callback
becomes a presence flag (its invocations are reported as events); the reply
parser slot keeps its function type, returning the C non-zero error flag.
Fields that only route user data are dropped. -/
structure DF1MSG where
  state : Nat
  buf : BUF
  is_cmd : Bool
  tns : Nat
  expires : Nat := 0
  notify : Bool
  reply : Option (BUF → Bool) := none
  result : PCCC_RET_T := PCCC_RET_T.SUCCESS

instance : Inhabited DF1MSG :=
  ⟨⟨MSG_UNUSED, buf_new 300, false, 0, 0, false, none, PCCC_RET_T.SUCCESS⟩⟩

/-- The PCCC connection state relevant to message parsing (pccc struct plus
`PCCC_PRIV`). -/
structure PCCC where
  timeout : Nat
  sock_out : BUF
  msg_in : BUF
  msgs : List DF1MSG
  cur_msg : Nat

/-- `msg_is_reply` (msg.c): bit six of the CMD byte `data[2]`. -/
def msg_is_reply (p : PCCC) : Bool := (p.msg_in.data.getD 2 0) &&& 0x40 != 0

/-- `msg_get_tns` (msg.c): 16-bit little-endian at offset 4. -/
def msg_get_tns (msg : BUF) : Nat := msg.data.getD 4 0 + 256 * msg.data.getD 5 0

/-- `msg_get_sts` (msg.c). -/
def msg_get_sts (msg : BUF) : Nat := msg.data.getD 3 0

/-- `msg_find_cmd` (msg.c): first in-use command slot whose transaction
number matches the received reply. -/
def msg_find_cmd (p : PCCC) : Option Nat :=
  let tns := msg_get_tns p.msg_in
  p.msgs.findIdx? (fun t => (t.state != MSG_UNUSED) && t.is_cmd && (t.tns == tns))

/-- `msg_flush` (msg.c). -/
def msg_flush (m : DF1MSG) : DF1MSG :=
  { m with state := MSG_UNUSED, expires := 0, buf := buf_empty m.buf }

/-- `sts_check` (sts.c): non-zero exactly when the STS byte is non-zero (the
rest of the function only formats the error string). -/
def sts_check (msg : BUF) : Bool := msg_get_sts msg != 0

/-- An observable user-callback invocation. -/
inductive PEvent
  | notifyUser (slot : Nat) (result : PCCC_RET_T)

/-- `parse_msg` (pccc.c): replies are matched by TNS; one ACK byte is queued
for the daemon in every reply case; a matching command gets `REPLY_RCVD` and,
when it has a notify callback, its result classified (and the callback fired
if the command is now complete).  Commands (bit six clear) do nothing. -/
def parse_msg (p : PCCC) : PCCC × List PEvent :=
  if msg_is_reply p then
    let found := msg_find_cmd p
    let p := { p with sock_out := (buf_append_byte p.sock_out MSG_ACK).1 }
    match found with
    | none => (p, [])
    | some j =>
      let m := p.msgs.getD j default
      let m := { m with state := m.state ||| MSG_REPLY_RCVD }
      if !m.notify then ({ p with msgs := listModify p.msgs j (fun _ => m) }, [])
      else
        let p := { p with msg_in.index := 6 }
        let bad := sts_check p.msg_in ||
          (match m.reply with
           | some f => f p.msg_in
           | none => false)
        let m := { m with result := if bad then PCCC_RET_T.ECMD_REPLY
                                    else PCCC_RET_T.SUCCESS }
        if m.state = MSG_CMD_DONE then
          ({ p with msgs := listModify p.msgs j (fun _ => msg_flush m) },
           [PEvent.notifyUser j m.result])
        else ({ p with msgs := listModify p.msgs j (fun _ => m) }, [])
  else (p, [])

/-! ## Wire-frame description and end-to-end harness

`stuff`/`encode_df1_frame` describe the byte stream the spec prescribes for
an outgoing message; the theorems below connect them to `tx_msg` and feed
them back through `parse_tty_data`. -/

/-- DLE-stuffing: each 0x10 payload byte is emitted as `DLE DLE`. -/
def stuff : List Nat → List Nat
  | [] => []
  | b :: bs => if b = SYM_DLE then SYM_DLE :: SYM_DLE :: stuff bs
               else b :: stuff bs

/-- The checksum trailer: CRC-16 over payload plus ETX, little-endian, or
the one-byte BCC over the payload only. -/
def checksum_bytes (use_crc : Bool) (B : List Nat) : List Nat :=
  if use_crc then
    let c := crc_fold 0 (B ++ [SYM_ETX])
    [c % 256, c / 256 % 256]
  else [bcc_out (bcc_fold 0 B)]

/-- The complete wire frame for application payload `B`. -/
def encode_df1_frame (use_crc : Bool) (B : List Nat) : List Nat :=
  [SYM_DLE, SYM_STX] ++ stuff B ++ [SYM_DLE, SYM_ETX] ++ checksum_bytes use_crc B

/-- A client holding payload `B` ready for transmission. -/
def mkClientWith (st : CLIENT_STATE_T) (addr : Nat) (B : List Nat) : CLIENT :=
  { state := st, addr := addr, df1_tx := ⟨512, B, 0⟩,
    sock_out := buf_new 512, sock_in := buf_new 512 }

/-- A fresh connection whose only client has payload `B` queued. -/
def txConn (u : Bool) (B : List Nat) : CONN :=
  { use_crc := u
    tty_in := buf_new 512
    tty_out := buf_new 512
    tx := tx_init 3 3 200
    rx := rx_init false
    clients := [mkClientWith CLIENT_MSG_READY 5 B] }

/-- Submit the queued message through the arbitrator and transmitter. -/
def tx_submit (u : Bool) (B : List Nat) : CONN := find_next_tx 4 (txConn u B) none

/-- A fresh connection whose TTY input buffer holds `bytes` (as left by
`buf_read`). -/
def rxConn (u : Bool) (bytes : List Nat) : CONN :=
  { use_crc := u
    tty_in := ⟨512, bytes, 0⟩
    tty_out := buf_new 512
    tx := tx_init 3 3 200
    rx := rx_init false
    clients := [] }

/-- Run the receive path over raw TTY bytes. -/
def rx_feed (u : Bool) (bytes : List Nat) : CONN := parse_tty_data 4 (rxConn u bytes)

/-! ## Scenario: unresponsive peer with `tx_max_enq = 2` (claim C5)

`ack_timeout = 200` ms gives `tticks = 20`.  `drainStep` models the TTY
writer fully draining the output buffer, which is what triggers
`tx_data_sent` in `tty_write`/`conn_service_fds`. -/

def enqScenarioStart : CONN :=
  { use_crc := true
    tty_in := buf_new 512
    tty_out := buf_new 512
    tx := tx_init 2 2 200
    rx := rx_init false
    clients := [mkClientWith CLIENT_MSG_READY 5 [5, 0, 6, 0, 1, 2]] }

/-- The TTY writer drains the output buffer and notifies the transmitter. -/
def drainStep (c : CONN) : CONN :=
  tx_data_sent { c with tty_out := buf_empty c.tty_out }

/-- Message submitted and fully written: transmitter awaits the response. -/
def enqStage0 : CONN := drainStep (find_next_tx 4 enqScenarioStart none)

/-- After the first ACK timeout (21 ticks at `tticks = 20`). -/
def enqStage1 : CONN := (tx_tick 4)^[21] enqStage0

/-- After the second ACK timeout. -/
def enqStage2 : CONN := (tx_tick 4)^[21] (drainStep enqStage1)

/-- After the third ACK timeout. -/
def enqStage3 : CONN := (tx_tick 4)^[21] (drainStep enqStage2)

/-! ## Scenario: delivery into a nearly-full client socket buffer (claim C4) -/

/-- A registered client whose socket output buffer already holds 511 of its
512 bytes. -/
def sinkFullClient : CLIENT :=
  { state := CLIENT_IDLE, addr := 5
    df1_tx := buf_new 512
    sock_out := ⟨512, List.replicate 511 0, 0⟩
    sock_in := buf_new 512 }

/-- A connection that has just finished receiving the valid 6-byte message
`05 00 06 00 01 02` (BCC mode, matching checksum) for that client. -/
def sinkFullConn : CONN :=
  { use_crc := false
    tty_in := buf_new 512
    tty_out := buf_new 512
    tx := tx_init 2 2 200
    rx := { rx_init false with state := RX_CS1, app := ⟨512, [5, 0, 6, 0, 1, 2], 0⟩, acc_cs := bcc_fold 0 [5, 0, 6, 0, 1, 2], msg_cs := bcc_out (bcc_fold 0 [5, 0, 6, 0, 1, 2]) }
    clients := [sinkFullClient] }

/-- A PCCC connection that has just assembled the inbound reply
`02 01 4f 00 34 12` (CMD byte 0x4f: bit 6 set, TNS 0x1234) while its only
message slot is unused, so no outstanding command matches. -/
def replyNoMatchConn : PCCC :=
  { timeout := 5
    sock_out := buf_new 300
    msg_in := ⟨300, [2, 1, 0x4f, 0, 0x34, 0x12], 0⟩
    msgs := [default]
    cur_msg := 0 }

/-- A connection (BCC mode, duplicate detection off) that has just finished
receiving the valid 6-byte message `05 00 06 00 01 02` for a registered
client with an empty socket buffer. -/
def deliverConn : CONN :=
  { use_crc := false
    tty_in := buf_new 512
    tty_out := buf_new 512
    tx := tx_init 2 2 200
    rx := { rx_init false with state := RX_CS1, app := ⟨512, [5, 0, 6, 0, 1, 2], 0⟩, acc_cs := bcc_fold 0 [5, 0, 6, 0, 1, 2], msg_cs := bcc_out (bcc_fold 0 [5, 0, 6, 0, 1, 2]) }
    clients := [mkClientWith CLIENT_IDLE 5 []] }

/-- A transmitter awaiting the peer's response to the queued frame
`10 02 07 10 03` (`max_nak = 3`, no NAKs yet). -/
def nakRespTx : TX :=
  { tx_init 3 3 200 with
      state := TX_PEND_RESP
      client := some 0
      msg := ⟨512, [16, 2, 7, 16, 3], 0⟩ }

/-- The same transmitter after one peer NAK: retransmitting. -/
def nakRetransTx : TX :=
  { tx_init 3 3 200 with
      state := TX_PEND_MSG_TX
      nak_cnt := 1
      client := some 0
      msg := ⟨512, [16, 2, 7, 16, 3], 0⟩ }

/-- A connection in `TX_PEND_RESP` whose client's message is in flight. -/
def nakRespConn : CONN :=
  { txConn false [7] with
      tx := nakRespTx
      clients := [mkClientWith CLIENT_MSG_PEND 5 []] }

/-- `nakRespConn` after the peer's first NAK: the identical frame queued
again on the TTY. -/
def nakRetransConn : CONN :=
  { txConn false [7] with
      tx := nakRetransTx
      tty_out := ⟨512, [16, 2, 7, 16, 3], 0⟩
      clients := [mkClientWith CLIENT_MSG_PEND 5 []] }


/-- Folding `cs_add` over a byte list, as the receiver does across the
application phase of one message. -/
def cs_run (conn : CONN) (bs : List Nat) : CONN := bs.foldl cs_add conn

/-- The receiver-state builder used across the framing proofs: receiver in
state `st` with `prev_dle = pd`, no overflow, the TTY cursor at `ti`, the
application buffer holding `ad`, and the two checksum registers. -/
def rxSt (base : CONN) (st : RX_STATE_T) (pd : Bool) (ti : Nat) (ad : List Nat)
    (acc mcs : Nat) : CONN :=
  { base with
      rx.state := st
      rx.prev_dle := pd
      rx.overflow := false
      tty_in.index := ti
      rx.app.data := ad
      rx.acc_cs := acc
      rx.msg_cs := mcs }

/-- The link-parser state builder: `read_sym` flag and TTY cursor. -/
def pSt (base : CONN) (rs : Bool) (ti : Nat) : CONN :=
  { base with
      read_sym := rs
      tty_in.index := ti }

/-- A connection like `txConn` (BCC mode, one ready client) but with chosen
transmitter-message and TTY-output capacities, for the overflow scenarios. -/
def c9Conn (mmax tmax : Nat) (B : List Nat) : CONN :=
  { txConn false B with
      tty_out := buf_new tmax
      tx.msg := buf_new mmax }

end Libpccc

namespace Libpccc

open CLIENT_STATE_T TX_STATE_T RX_STATE_T

/-- C7 counterexample: the receiver timeout window set up by `rx_init` is
501 ticks, not the 500 ticks the claim states; after the 501st tick since
the first application byte (`eticks` reaching 501 from 500) the in-progress
message is still being received. -/
theorem rx_window_not_500 :
    (rx_init false).tticks = 501 ∧
    ¬(rx_init false).tticks = 500 ∧
    (rx_tick { rxConn false [] with
        rx := { rx_init false with state := RX_APP, eticks := 500 } }).rx.state
      = RX_APP := by
  refine ⟨rfl, by decide, ?_⟩
  decide

/-- C7 (amended): `rx_init` sets the receiver timeout to
`5000000 / TICK_USEC + 1 = 501` ticks.  `rx_tick` advances the elapsed count
only in states `RX_APP`, `RX_CS1`, `RX_CS2` (never in `RX_IDLE` or
`RX_PEND`, so an idle channel never times out); when the count passes the
limit the in-progress message is dropped (state back to `RX_IDLE`),
`last_was_ack` is cleared, and nothing is queued on the TTY (no NAK). -/
theorem rx_timeout_window (conn : CONN) :
    (∀ d, (rx_init d).tticks = 501) ∧
    (conn.rx.state = RX_IDLE ∨ conn.rx.state = RX_PEND → rx_tick conn = conn) ∧
    (¬(conn.rx.state = RX_IDLE ∨ conn.rx.state = RX_PEND) →
      (rx_tick conn).rx.eticks = conn.rx.eticks + 1 ∧
      (conn.rx.tticks < conn.rx.eticks + 1 →
        (rx_tick conn).rx.state = RX_IDLE ∧
        (rx_tick conn).rx.last_was_ack = false ∧
        (rx_tick conn).tty_out = conn.tty_out ∧
        (rx_tick conn).dcnts = conn.dcnts) ∧
      (¬conn.rx.tticks < conn.rx.eticks + 1 →
        (rx_tick conn).rx.state = conn.rx.state ∧
        (rx_tick conn).rx.last_was_ack = conn.rx.last_was_ack)) := by
  refine ⟨fun d => rfl, ?_, ?_⟩
  · intro h
    unfold rx_tick
    have : (conn.rx.state = RX_IDLE || conn.rx.state = RX_PEND) = true := by
      rcases h with h | h <;> simp [h]
    simp [this]
  · intro h
    have h1 : ¬conn.rx.state = RX_IDLE := fun hh => h (Or.inl hh)
    have h2 : ¬conn.rx.state = RX_PEND := fun hh => h (Or.inr hh)
    have hb : (conn.rx.state = RX_IDLE || conn.rx.state = RX_PEND) = false := by
      simp [h1, h2]
    refine ⟨?_, ?_, ?_⟩
    · unfold rx_tick
      rw [hb]
      simp only [Bool.false_eq_true, if_false]
      split <;> rfl
    · intro hexp
      unfold rx_tick
      rw [hb]
      simp [hexp, rx_set_nak]
    · intro hexp
      unfold rx_tick
      rw [hb]
      simp [hexp]

/-- Witness for `rx_timeout_window` at a concrete receiver in `RX_APP` with
501 elapsed ticks, where the 502nd tick drops the message. -/
theorem rx_timeout_window_witness :
    (rx_tick { rxConn false [] with
        rx := { rx_init false with state := RX_APP, eticks := 501 } }).rx.state
        = RX_IDLE ∧
    (rx_tick { rxConn false [] with
        rx := { rx_init false with state := RX_APP, eticks := 501 } }).rx.last_was_ack
        = false := by
  have h := (rx_timeout_window { rxConn false [] with
      rx := { rx_init false with state := RX_APP, eticks := 501 } }).2.2
      (by decide)
  exact ⟨(h.2.1 (by decide)).1, (h.2.1 (by decide)).2.1⟩

/-- C5 counterexample: with `tx_max_enq = 2` and an unresponsive peer, after
the second ACK timeout the message has NOT been failed: the transmitter has
just queued its second `DLE ENQ` (state `TX_PEND_MSG_TX`), `tx_fail` is
still 0, `enqs_out` is still 0 (the code never increments that counter),
`resp_timeouts` is 2, and the client has received no NAK byte. -/
theorem enq_second_timeout_no_fail :
    enqStage2.tx.state = TX_PEND_MSG_TX ∧
    enqStage2.tty_out.data = [SYM_DLE, SYM_ENQ] ∧
    enqStage2.dcnts.tx_fail = 0 ∧
    enqStage2.dcnts.enqs_out = 0 ∧
    enqStage2.dcnts.resp_timeouts = 2 ∧
    (enqStage2.clients.getD 0 default).sock_out.data = [] := by
  decide

/-- C5 (amended): with `tx_max_enq = 2` and an unresponsive peer, the
transmitter emits `DLE ENQ` (10 05) and restarts its timer after the first
AND the second ACK timeout; the message is failed only at the third timeout
(`++enq_cnt > max_enq`), at which point the originating client receives one
NAK byte (0x15) and the counters read `resp_timeouts = 3`, `tx_fail = 1`,
while `enqs_out` stays 0 because no code path increments it. -/
theorem enq_exhaustion_run :
    enqStage1.tty_out.data = [SYM_DLE, SYM_ENQ] ∧
    enqStage1.tx.state = TX_PEND_MSG_TX ∧
    enqStage1.tx.enq_cnt = 1 ∧
    (drainStep enqStage1).tx.eticks = 0 ∧
    enqStage2.tty_out.data = [SYM_DLE, SYM_ENQ] ∧
    enqStage2.tx.enq_cnt = 2 ∧
    enqStage3.tx.state = TX_IDLE ∧
    enqStage3.dcnts.resp_timeouts = 3 ∧
    enqStage3.dcnts.tx_fail = 1 ∧
    enqStage3.dcnts.enqs_out = 0 ∧
    (enqStage3.clients.getD 0 default).sock_out.data = [MSG_NAK] ∧
    (enqStage3.clients.getD 0 default).state = CLIENT_IDLE := by
  decide

/-- C4: evaluating the delivery path at the failing input.  The connection
`sinkFullConn` has just completed a valid 6-byte message for a registered
client whose socket buffer holds 511 of 512 bytes.  `accept_msg` takes the
sink-full branch of `client_msg_rx`: it sends a NAK (`naks_out = 1`,
`sink_full = 1`) — which sets the receiver state to `RX_IDLE` — but the code
then falls through and still stores the client back-pointer, leaving
`state = RX_IDLE` with `client = some 0` and violating the invariant that
the receiver's client pointer is non-null only in `RX_PEND`. -/
theorem sink_full_breaks_invariant :
    (accept_msg sinkFullConn).rx.state = RX_IDLE ∧
    (accept_msg sinkFullConn).rx.client = some 0 ∧
    (accept_msg sinkFullConn).dcnts.naks_out = 1 ∧
    ((accept_msg sinkFullConn).clients.getD 0 default).dcnts.sink_full = 1 ∧
    ¬((accept_msg sinkFullConn).rx.client ≠ none ↔
      (accept_msg sinkFullConn).rx.state = RX_PEND) := by
  decide

/-- Looking up just past an existing prefix reads from the appended part. -/
theorem getD_append_off (l r : List Nat) (k : Nat) :
    (l ++ r).getD (l.length + k) 0 = r.getD k 0 := by
  induction l with
  | nil => simp
  | cons a l ih =>
    simpa [List.length_cons, Nat.succ_add] using ih

/-- C8: for every 16-bit address value, `addr_encode` emits the single byte
`a` when `a ≤ 254` and the three bytes `0xff`, `a` low byte, `a` high byte
(little-endian) when `a ≥ 255`; `addr_decode`, started at the position where
the encoding begins, returns exactly `a` with the read cursor advanced past
the encoding. -/
theorem addr_encode_decode (b : BUF) (a : Nat) (ha : a < 65536)
    (hroom : b.len + 3 ≤ b.max) :
    (addr_encode b a).2 = false ∧
    (addr_encode b a).1.data =
      b.data ++ (if a ≤ 254 then [a] else [0xff, a % 256, a / 256]) ∧
    addr_decode { (addr_encode b a).1 with index := b.data.length } =
      some (a, { (addr_encode b a).1 with
                 index := b.data.length + (if a ≤ 254 then 1 else 3) }) := by
  have hdiv : a / 256 < 256 := by omega
  rcases le_or_lt a 254 with hle | hgt
  · have henc : addr_encode b a =
        ({ b with data := b.data ++ [a] }, false) := by
      unfold addr_encode buf_append_byte
      have : ¬254 < a := by omega
      rw [if_neg this]
      have hne : ¬b.len = b.max := by unfold BUF.len at hroom ⊢; omega
      rw [if_neg hne]
      have : a % 256 = a := Nat.mod_eq_of_lt (by omega)
      simp [this]
    refine ⟨by rw [henc], by rw [henc]; simp [hle], ?_⟩
    rw [henc]
    unfold addr_decode buf_get_byte
    have hlen : ({ b with data := b.data ++ [a] } : BUF).len ≠ b.data.length := by
      simp [BUF.len]
    rw [if_neg (by simpa using hlen)]
    have hget : (b.data ++ [a]).getD b.data.length 0 = a := by
      simpa using getD_append_off b.data [a] 0
    simp only [hget]
    have : ¬a = 0xff := by omega
    rw [if_neg this]
    simp [hle]
  · have hff : (0xff : Nat) % 256 = 0xff := by norm_num
    have henc : addr_encode b a =
        ({ b with data := b.data ++ [0xff, a % 256, a / 256] }, false) := by
      unfold addr_encode buf_append_byte buf_append_word
      rw [if_pos hgt]
      have hne : ¬b.len = b.max := by unfold BUF.len at hroom ⊢; omega
      rw [if_neg hne]
      simp only [hff]
      have h2 : ¬(({ b with data := b.data ++ [0xff] } : BUF).len + 2 > b.max) := by
        simp only [BUF.len, List.length_append, List.length_cons,
          List.length_nil] at hroom ⊢
        omega
      rw [if_neg h2]
      have : a / 256 % 256 = a / 256 := Nat.mod_eq_of_lt hdiv
      simp [this]
    refine ⟨by rw [henc], by rw [henc]; simp [Nat.not_le.2 hgt], ?_⟩
    rw [henc]
    unfold addr_decode buf_get_byte buf_get_word
    have hlen : ¬({ b with data := b.data ++ [0xff, a % 256, a / 256] } : BUF).len
        = b.data.length := by
      simp [BUF.len]
    rw [if_neg (by simpa using hlen)]
    have hget0 : (b.data ++ [0xff, a % 256, a / 256]).getD b.data.length 0 = 0xff := by
      simpa using getD_append_off b.data [0xff, a % 256, a / 256] 0
    simp only [hget0]
    simp only [if_true]
    have hc : ¬(b.data.length + 1 + 2 >
        ({ max := b.max, data := b.data ++ [255, a % 256, a / 256],
           index := b.data.length + 1 } : BUF).len) := by
      simp only [BUF.len, List.length_append, List.length_cons, List.length_nil]
      omega
    rw [if_neg hc]
    have hget1 : (b.data ++ [0xff, a % 256, a / 256]).getD (b.data.length + 1) 0
        = a % 256 := by
      simpa using getD_append_off b.data [0xff, a % 256, a / 256] 1
    have hget2 : (b.data ++ [0xff, a % 256, a / 256]).getD (b.data.length + 1 + 1) 0
        = a / 256 := by
      have := getD_append_off b.data [0xff, a % 256, a / 256] 2
      simpa [Nat.add_assoc] using this
    rw [hget1, hget2]
    have hval : a % 256 + 256 * (a / 256) = a := Nat.mod_add_div a 256
    simp [hval, Nat.not_le.2 hgt, Nat.add_assoc]

/-- Witness for `addr_encode_decode`: the boundary values 254 (one byte),
255 (three bytes) and 65535 on an empty 8-byte buffer. -/
theorem addr_encode_decode_witness :
    ((addr_encode (buf_new 8) 254).1.data = [254] ∧
      addr_decode { (addr_encode (buf_new 8) 254).1 with index := 0 } =
        some (254, { (addr_encode (buf_new 8) 254).1 with index := 1 })) ∧
    ((addr_encode (buf_new 8) 255).1.data = [0xff, 255, 0] ∧
      addr_decode { (addr_encode (buf_new 8) 255).1 with index := 0 } =
        some (255, { (addr_encode (buf_new 8) 255).1 with index := 3 })) ∧
    (addr_encode (buf_new 8) 65535).1.data = [0xff, 255, 255] := by
  have h254 := addr_encode_decode (buf_new 8) 254 (by norm_num) (by norm_num [BUF.len, buf_new])
  have h255 := addr_encode_decode (buf_new 8) 255 (by norm_num) (by norm_num [BUF.len, buf_new])
  have h65535 := addr_encode_decode (buf_new 8) 65535 (by norm_num) (by norm_num [BUF.len, buf_new])
  refine ⟨⟨?_, ?_⟩, ⟨?_, ?_⟩, ?_⟩
  · simpa using h254.2.1
  · simpa [buf_new] using h254.2.2
  · simpa using h255.2.1
  · simpa [buf_new] using h255.2.2
  · simpa using h65535.2.1

/-- C10: for every inbound message classified as a reply (bit 6 of the CMD
byte set), `parse_msg` appends exactly one ACK byte to the socket output
buffer, whether or not an outstanding command matches the reply's
transaction number; when no command in the pool matches, the pool is left
unchanged and no user callback fires. -/
theorem parse_msg_reply_acks (p : PCCC) (hrep : msg_is_reply p = true)
    (hroom : p.sock_out.len < p.sock_out.max) :
    (parse_msg p).1.sock_out.data = p.sock_out.data ++ [MSG_ACK] ∧
    (msg_find_cmd p = none →
      (parse_msg p).1.msgs = p.msgs ∧ (parse_msg p).2 = []) := by
  have happ : (buf_append_byte p.sock_out MSG_ACK).1.data
      = p.sock_out.data ++ [MSG_ACK] := by
    unfold buf_append_byte
    rw [if_neg (by unfold BUF.len at hroom ⊢; omega)]
    norm_num [MSG_ACK]
  unfold parse_msg
  rw [hrep]
  simp only [if_true]
  constructor
  · rcases hfind : msg_find_cmd p with _ | j
    · simp [hfind, happ]
    · simp only [hfind]
      split
      · simpa using happ
      · split
        · simpa using happ
        · simpa using happ
  · intro hnone
    simp [hnone]

/-- Witness for `parse_msg_reply_acks` at `replyNoMatchConn`. -/
theorem parse_msg_reply_acks_witness :
    (parse_msg replyNoMatchConn).1.sock_out.data = [MSG_ACK] ∧
    (parse_msg replyNoMatchConn).1.msgs = replyNoMatchConn.msgs := by
  have h := parse_msg_reply_acks replyNoMatchConn (by decide) (by decide)
  have hnone : msg_find_cmd replyNoMatchConn = none := by
    simp [msg_find_cmd, msg_get_tns, replyNoMatchConn]
  exact ⟨by simpa [replyNoMatchConn, buf_new] using h.1, (h.2 hnone).1⟩

/-! Helper lemmas about `listModify` (the model of in-place client update). -/

theorem listModify_length {α : Type} (l : List α) (i : Nat) (f : α → α) :
    (listModify l i f).length = l.length := by
  induction l generalizing i with
  | nil => rfl
  | cons a l ih =>
    cases i with
    | zero => simp [listModify]
    | succ i => simp [listModify, ih]

theorem listModify_getD_self {α : Type} (l : List α) (i : Nat) (f : α → α)
    (d : α) (h : i < l.length) :
    (listModify l i f).getD i d = f (l.getD i d) := by
  induction l generalizing i with
  | nil => simp at h
  | cons a l ih =>
    cases i with
    | zero => simp [listModify]
    | succ i =>
      simp only [listModify, List.getD_cons_succ]
      exact ih i (by simpa using h)

theorem listModify_mem {α : Type} (l : List α) (i : Nat) (f : α → α) :
    ∀ c ∈ listModify l i f, c ∈ l ∨ ∃ x ∈ l, c = f x := by
  induction l generalizing i with
  | nil => intro c hc; simp [listModify] at hc
  | cons a l ih =>
    intro c hc
    cases i with
    | zero =>
      simp only [listModify, List.mem_cons] at hc
      rcases hc with hc | hc
      · exact Or.inr ⟨a, List.mem_cons_self a l, hc⟩
      · exact Or.inl (List.mem_cons_of_mem a hc)
    | succ i =>
      simp only [listModify, List.mem_cons] at hc
      rcases hc with hc | hc
      · exact Or.inl (hc ▸ List.mem_cons_self a l)
      · rcases ih i c hc with h | ⟨x, hx, hcx⟩
        · exact Or.inl (List.mem_cons_of_mem a h)
        · exact Or.inr ⟨x, List.mem_cons_of_mem a hx, hcx⟩

/-- When no client is in `CLIENT_MSG_READY`, the arbitrator's round-robin
scan finds nothing and the connection is unchanged. -/
theorem find_next_tx_noready (fuel : Nat) (conn : CONN) (start : Option Nat)
    (h : ∀ c ∈ conn.clients, c.state ≠ CLIENT_MSG_READY) :
    find_next_tx fuel conn start = conn := by
  cases fuel with
  | zero => rfl
  | succ fuel =>
    unfold find_next_tx
    split
    · rfl
    · split
      · rfl
      · rename_i hbusy hne
        have hfind : (((List.range conn.clients.length).map
            (fun k => ((match start with
              | some s => s
              | none => match conn.tx.client with
                | none => 0
                | some i => (i + 1) % conn.clients.length) + k)
                % conn.clients.length)).find?
            (fun j => (conn.clients.getD j default).state == CLIENT_MSG_READY))
            = none := by
          apply List.find?_eq_none.2
          intro j hj
          simp only [List.mem_map] at hj
          obtain ⟨k, _, hk⟩ := hj
          have hnil : conn.clients ≠ [] := by
            intro hh; rw [hh] at hne; simp at hne
          have hpos : 0 < conn.clients.length := List.length_pos.2 hnil
          have hjlt : j < conn.clients.length := hk ▸ Nat.mod_lt _ hpos
          have hmem : conn.clients.getD j default ∈ conn.clients := by
            rw [List.getD_eq_getElem?_getD, List.getElem?_eq_getElem hjlt]
            simpa using List.getElem_mem hjlt
          simpa using h _ hmem
        simp only [hfind]

/-- If every client avoids `CLIENT_MSG_READY` and the update function keeps
it that way, the modified list still has no ready client. -/
theorem noready_after_modify (l : List CLIENT) (i : Nat) (g : CLIENT → CLIENT)
    (h : ∀ c ∈ l, c.state ≠ CLIENT_MSG_READY)
    (hg : ∀ c, (g c).state ≠ CLIENT_MSG_READY) :
    ∀ c ∈ listModify l i g, c.state ≠ CLIENT_MSG_READY := by
  intro c hcm
  rcases listModify_mem l i g c hcm with hm | ⟨x, _, hcx⟩
  · exact h c hm
  · exact hcx ▸ hg x

/-- C6: a peer NAK in `TX_PEND_RESP` increments `nak_cnt`; while the new
count is below `max_nak` the identical frame is copied to the TTY again and
the state returns to `TX_PEND_MSG_TX`; once it reaches `max_nak` the
transmitter flushes (retry counters zero, message emptied, state `TX_IDLE`),
one NAK byte is appended to the originating client's socket output (client
back to `CLIENT_IDLE`, its `tx_fail` counted), `tx_fail` is counted on the
connection, and the arbitrator is asked for the next transmission (here
finding no ready client).  A NAK in any other transmitter state clears the
receiver's `last_was_ack` flag — and also adds 2 to the `bytes_ignored`
counter. -/
theorem tx_nak_classified (fuel : Nat) (conn : CONN) (i : Nat)
    (hs : conn.tx.state = TX_PEND_RESP)
    (hc : conn.tx.client = some i)
    (hi : i < conn.clients.length)
    (hnoready : ∀ c ∈ conn.clients, c.state ≠ CLIENT_MSG_READY)
    (hsock : (conn.clients.getD i default).sock_out.len
             < (conn.clients.getD i default).sock_out.max)
    (htty : conn.tty_out.len + conn.tx.msg.len ≤ conn.tty_out.max) :
    (conn.tx.nak_cnt + 1 < conn.tx.max_nak →
      tx_nak (fuel + 1) conn =
        { conn with
            tx := { conn.tx with nak_cnt := conn.tx.nak_cnt + 1,
                                 state := TX_PEND_MSG_TX },
            tty_out := { conn.tty_out with
                           data := conn.tty_out.data ++ conn.tx.msg.data } }) ∧
    (conn.tx.max_nak ≤ conn.tx.nak_cnt + 1 →
      tx_nak (fuel + 1) conn =
        updClient
          { conn with
              tx := { conn.tx with state := TX_IDLE, nak_cnt := 0, enq_cnt := 0,
                                   msg := buf_empty conn.tx.msg, client := some i },
              dcnts := { conn.dcnts with tx_fail := conn.dcnts.tx_fail + 1 } }
          i (fun c =>
              { c with state := CLIENT_IDLE,
                       sock_out := (buf_append_byte c.sock_out MSG_NAK).1,
                       dcnts := { c.dcnts with tx_fail := c.dcnts.tx_fail + 1 } }) ∧
      ((tx_nak (fuel + 1) conn).clients.getD i default).sock_out.data
        = (conn.clients.getD i default).sock_out.data ++ [MSG_NAK] ∧
      ((tx_nak (fuel + 1) conn).clients.getD i default).state = CLIENT_IDLE) ∧
    (∀ c : CONN, c.tx.state ≠ TX_PEND_RESP →
      tx_nak fuel c =
        { c with rx := rx_set_nak c.rx,
                 dcnts := { c.dcnts with
                              bytes_ignored := c.dcnts.bytes_ignored + 2 } }) := by
  have happ : (buf_append_byte (conn.clients.getD i default).sock_out MSG_NAK).1.data
      = (conn.clients.getD i default).sock_out.data ++ [MSG_NAK] := by
    unfold buf_append_byte
    rw [if_neg (by unfold BUF.len at hsock ⊢; omega)]
    norm_num [MSG_NAK]
  refine ⟨?_, ?_, ?_⟩
  · intro hlt
    have h1 : (conn.tx.max_nak ≤ conn.tx.nak_cnt + 1) = False := eq_false (by omega)
    have h2 : (conn.tty_out.len + conn.tx.msg.len > conn.tty_out.max) = False :=
      eq_false (by omega)
    simp only [tx_nak, hs, if_true, h1, if_false, send_msg, buf_append_buf, h2]
  · intro hge
    have h1 : (conn.tx.max_nak ≤ conn.tx.nak_cnt + 1) = True := eq_true hge
    have heq : tx_nak (fuel + 1) conn =
        updClient
          { conn with
              tx := { conn.tx with state := TX_IDLE, nak_cnt := 0, enq_cnt := 0,
                                   msg := buf_empty conn.tx.msg, client := some i },
              dcnts := { conn.dcnts with tx_fail := conn.dcnts.tx_fail + 1 } }
          i (fun c =>
              { c with state := CLIENT_IDLE,
                       sock_out := (buf_append_byte c.sock_out MSG_NAK).1,
                       dcnts := { c.dcnts with tx_fail := c.dcnts.tx_fail + 1 } }) := by
      simp only [tx_nak, hs, if_true, h1, client_msg_tx_fail, flush_msg, hc]
      exact find_next_tx_noready fuel _ none
        (noready_after_modify conn.clients i _ hnoready (fun c => by simp))
    refine ⟨heq, ?_, ?_⟩
    · rw [heq]
      unfold updClient
      rw [listModify_getD_self _ _ _ _ hi]
      exact happ
    · rw [heq]
      unfold updClient
      rw [listModify_getD_self _ _ _ _ hi]
  · intro c hcs
    have h0 : (c.tx.state = TX_PEND_RESP) = False := eq_false hcs
    simp only [tx_nak, h0, if_false]

/-- C6 counterexample: on a connection whose transmitter is `TX_IDLE`, a
peer NAK does not ONLY clear `last_was_ack` — it also adds 2 to the
`bytes_ignored` counter, so the result differs from the claimed
flag-only update. -/
theorem tx_nak_unexpected_counts_bytes :
    (tx_nak 1 (txConn false [7])).dcnts.bytes_ignored = 2 ∧
    tx_nak 1 (txConn false [7]) ≠
      { txConn false [7] with rx := rx_set_nak (txConn false [7]).rx } := by
  decide

/-- Witness for `tx_nak_classified`: a connection in `TX_PEND_RESP` with
`nak_cnt = 0`, `max_nak = 3` and the 4-byte frame `10 02 07 10 03`
queued; the peer NAK triggers a retransmission of the identical frame. -/
theorem tx_nak_classified_witness :
    tx_nak 3 nakRespConn = nakRetransConn := by
  have h := (tx_nak_classified 2 nakRespConn 0
    (by decide) (by decide) (by decide) (by decide) (by decide) (by decide)).1
    (by decide)
  refine h.trans ?_
  decide

/-- `rx_nak` with room on the TTY: queues exactly `DLE NAK`. -/
theorem rx_nak_spec (conn : CONN) (htty : conn.tty_out.len + 2 ≤ conn.tty_out.max) :
    rx_nak conn =
      { conn with
          tty_out := { conn.tty_out with
                         data := conn.tty_out.data ++ [SYM_DLE, SYM_NAK] },
          rx := { conn.rx with last_was_ack := false, state := RX_IDLE,
                               client := none },
          dcnts := { conn.dcnts with naks_out := conn.dcnts.naks_out + 1 } } := by
  have h1 : (conn.tty_out.len = conn.tty_out.max) = False := eq_false (by omega)
  unfold rx_nak buf_append_byte
  simp only [h1, if_false, Bool.false_eq_true]
  have h2 : (({ conn.tty_out with
      data := conn.tty_out.data ++ [SYM_DLE % 256] } : BUF).len
      = conn.tty_out.max) = False := by
    apply eq_false
    simp only [BUF.len, List.length_append, List.length_cons, List.length_nil]
    unfold BUF.len at htty
    omega
  simp only [h2, if_false]
  simp [rx_set_nak, SYM_DLE, SYM_NAK]

/-- `rx_ack` with room on the TTY: queues exactly `DLE ACK`. -/
theorem rx_ack_spec (conn : CONN) (htty : conn.tty_out.len + 2 ≤ conn.tty_out.max) :
    rx_ack conn =
      { conn with
          tty_out := { conn.tty_out with
                         data := conn.tty_out.data ++ [SYM_DLE, SYM_ACK] },
          rx := { conn.rx with last_was_ack := true, state := RX_IDLE,
                               client := none },
          dcnts := { conn.dcnts with acks_out := conn.dcnts.acks_out + 1 } } := by
  have h1 : (conn.tty_out.len = conn.tty_out.max) = False := eq_false (by omega)
  unfold rx_ack buf_append_byte
  simp only [h1, if_false, Bool.false_eq_true]
  have h2 : (({ conn.tty_out with
      data := conn.tty_out.data ++ [SYM_DLE % 256] } : BUF).len
      = conn.tty_out.max) = False := by
    apply eq_false
    simp only [BUF.len, List.length_append, List.length_cons, List.length_nil]
    unfold BUF.len at htty
    omega
  simp only [h2, if_false]
  simp [SYM_DLE, SYM_ACK]

/-- `msg_dup` on a duplicate: `dups` is counted, delivery-relevant fields
are untouched (the fingerprint is rewritten with identical values). -/
theorem msg_dup_dup_spec (conn : CONN)
    (hdd : conn.rx.dup_detect = true)
    (hm1 : conn.rx.app.data.getD 1 0 = conn.rx.dup0)
    (hm2 : conn.rx.app.data.getD 2 0 = conn.rx.dup1)
    (hm3 : conn.rx.app.data.getD 4 0 = conn.rx.dup2)
    (hm4 : conn.rx.app.data.getD 5 0 = conn.rx.dup3) :
    (msg_dup conn).2 = true ∧
    (msg_dup conn).1.tty_out = conn.tty_out ∧
    (msg_dup conn).1.clients = conn.clients ∧
    (msg_dup conn).1.rx.app = conn.rx.app ∧
    (msg_dup conn).1.rx.state = conn.rx.state ∧
    (msg_dup conn).1.rx.client = conn.rx.client ∧
    (msg_dup conn).1.dcnts.dups = conn.dcnts.dups + 1 ∧
    (msg_dup conn).1.dcnts.msg_rx = conn.dcnts.msg_rx := by
  have e1 : conn.rx.app.data[1]?.getD 0 = conn.rx.dup0 := by
    simpa [List.getD_eq_getElem?_getD] using hm1
  have e2 : conn.rx.app.data[2]?.getD 0 = conn.rx.dup1 := by
    simpa [List.getD_eq_getElem?_getD] using hm2
  have e3 : conn.rx.app.data[4]?.getD 0 = conn.rx.dup2 := by
    simpa [List.getD_eq_getElem?_getD] using hm3
  have e4 : conn.rx.app.data[5]?.getD 0 = conn.rx.dup3 := by
    simpa [List.getD_eq_getElem?_getD] using hm4
  unfold msg_dup
  simp [hdd, e1, e2, e3, e4]

/-- `msg_dup` when detection is off or the fingerprint differs: not a
duplicate, counters untouched. -/
theorem msg_dup_nondup_spec (conn : CONN)
    (h : ¬(conn.rx.dup_detect = true ∧
           conn.rx.app.data.getD 1 0 = conn.rx.dup0 ∧
           conn.rx.app.data.getD 2 0 = conn.rx.dup1 ∧
           conn.rx.app.data.getD 4 0 = conn.rx.dup2 ∧
           conn.rx.app.data.getD 5 0 = conn.rx.dup3)) :
    (msg_dup conn).2 = false ∧
    (msg_dup conn).1.tty_out = conn.tty_out ∧
    (msg_dup conn).1.clients = conn.clients ∧
    (msg_dup conn).1.rx.app = conn.rx.app ∧
    (msg_dup conn).1.rx.state = conn.rx.state ∧
    (msg_dup conn).1.rx.client = conn.rx.client ∧
    (msg_dup conn).1.use_crc = conn.use_crc ∧
    (msg_dup conn).1.dcnts = conn.dcnts := by
  by_cases hdd : conn.rx.dup_detect = true
  · have hm : ¬(conn.rx.app.data.getD 1 0 = conn.rx.dup0 ∧
        conn.rx.app.data.getD 2 0 = conn.rx.dup1 ∧
        conn.rx.app.data.getD 4 0 = conn.rx.dup2 ∧
        conn.rx.app.data.getD 5 0 = conn.rx.dup3) := fun hm => h ⟨hdd, hm⟩
    have hmP : ¬(((conn.rx.app.data[1]?.getD 0 = conn.rx.dup0 ∧
        conn.rx.app.data[2]?.getD 0 = conn.rx.dup1) ∧
        conn.rx.app.data[4]?.getD 0 = conn.rx.dup2) ∧
        conn.rx.app.data[5]?.getD 0 = conn.rx.dup3) := by
      intro hx
      refine hm ⟨?_, ?_, ?_, ?_⟩
      · simpa [List.getD_eq_getElem?_getD] using hx.1.1.1
      · simpa [List.getD_eq_getElem?_getD] using hx.1.1.2
      · simpa [List.getD_eq_getElem?_getD] using hx.1.2
      · simpa [List.getD_eq_getElem?_getD] using hx.2
    unfold msg_dup
    simp [hdd, hmP]
    intro a b c d
    exact hmP ⟨⟨⟨a, b⟩, c⟩, d⟩
  · unfold msg_dup
    simp only [Bool.not_eq_true] at hdd
    simp [hdd]

theorem find_addr_congr (c c' : CONN) (h : c.clients = c'.clients) (a : Nat) :
    find_addr c a = find_addr c' a := by
  unfold find_addr
  rw [h]

theorem find_addr_lt (c : CONN) (a k : Nat) (h : find_addr c a = some k) :
    k < c.clients.length := by
  unfold find_addr at h
  exact (List.findIdx?_eq_some_iff_findIdx_eq.1 h).1

theorem listModify_getD_self2 {α : Type} (l : List α) (i : Nat) (f g : α → α)
    (d : α) (h : i < l.length) :
    (listModify (listModify l i f) i g).getD i d = g (f (l.getD i d)) := by
  have h2 : i < (listModify l i f).length := by rw [listModify_length]; exact h
  rw [listModify_getD_self (listModify l i f) i g d h2]
  rw [listModify_getD_self l i f d h]

theorem rx_nak_clients (x : CONN) : (rx_nak x).clients = x.clients := rfl

theorem client_msg_rx_spec (c : CONN) (hidx : c.rx.app.index = 0)
    (hlen : 0 < c.rx.app.len) (htty : c.tty_out.len + 2 ≤ c.tty_out.max) :
    (find_addr c (c.rx.app.data.getD 0 0) = none →
      (client_msg_rx c).dcnts.unknown_dst = c.dcnts.unknown_dst + 1 ∧
      (client_msg_rx c).tty_out.data = c.tty_out.data ++ [SYM_DLE, SYM_ACK] ∧
      (client_msg_rx c).rx.state = RX_IDLE ∧
      (client_msg_rx c).rx.client = none ∧
      (client_msg_rx c).dcnts.msg_rx = c.dcnts.msg_rx ∧
      (client_msg_rx c).clients = c.clients) ∧
    (∀ k, find_addr c (c.rx.app.data.getD 0 0) = some k →
      (client_msg_rx c).rx.client = some k ∧
      ((client_msg_rx c).clients.getD k default).dcnts.msg_rx
        = (c.clients.getD k default).dcnts.msg_rx + 1 ∧
      (client_msg_rx c).dcnts.msg_rx = c.dcnts.msg_rx) := by
  have hget : buf_get_byte c.rx.app =
      some (c.rx.app.data.getD 0 0, { c.rx.app with index := 1 }) := by
    unfold buf_get_byte
    rw [if_neg (by omega)]
    rw [hidx]
  constructor
  · intro hfa
    have hfa1 : find_addr { c with rx := { c.rx with
        app := { c.rx.app with index := 1 } } } (c.rx.app.data.getD 0 0) = none :=
      (find_addr_congr _ c rfl _).trans hfa
    have heq : client_msg_rx c =
        rx_ack { c with
          rx := { c.rx with app := { c.rx.app with index := 1 } },
          dcnts := { c.dcnts with unknown_dst := c.dcnts.unknown_dst + 1 } } := by
      unfold client_msg_rx
      rw [hget]
      simp only [hfa1]
    have heq2 := heq.trans (rx_ack_spec _ (by exact htty))
    rw [heq2]
    exact ⟨rfl, rfl, rfl, rfl, rfl, rfl⟩
  · intro k hfa
    have hk : k < c.clients.length := find_addr_lt c _ k hfa
    have hfa1 : find_addr { c with rx := { c.rx with
        app := { c.rx.app with index := 1 } } } (c.rx.app.data.getD 0 0) = some k :=
      (find_addr_congr _ c rfl _).trans hfa
    unfold client_msg_rx
    rw [hget]
    simp only [hfa1]
    split
    · refine ⟨by trivial, ?_, by trivial⟩
      unfold updClient
      simp only [rx_nak_clients]
      rw [listModify_getD_self2 c.clients k _ _ default hk]
    · refine ⟨by trivial, ?_, by trivial⟩
      unfold updClient
      rw [listModify_getD_self c.clients k _ default hk]

/-- The delivery step of `accept_msg` (`msg_rx` counted, state set to
`RX_PEND`, then `client_msg_rx`): the connection-level `msg_rx` reads one
more than before, an unknown destination is ACKed and counted, and a found
client has the receiver back-pointer set and its own `msg_rx` counted. -/
theorem deliver_step_spec (md : CONN)
    (hidx : md.rx.app.index = 0) (hlen : 0 < md.rx.app.len)
    (htty : md.tty_out.len + 2 ≤ md.tty_out.max) :
    (client_msg_rx { md with
        dcnts := { md.dcnts with msg_rx := md.dcnts.msg_rx + 1 },
        rx := { md.rx with state := RX_PEND } }).dcnts.msg_rx
      = md.dcnts.msg_rx + 1 ∧
    (find_addr md (md.rx.app.data.getD 0 0) = none →
      (client_msg_rx { md with
          dcnts := { md.dcnts with msg_rx := md.dcnts.msg_rx + 1 },
          rx := { md.rx with state := RX_PEND } }).dcnts.unknown_dst
        = md.dcnts.unknown_dst + 1 ∧
      (client_msg_rx { md with
          dcnts := { md.dcnts with msg_rx := md.dcnts.msg_rx + 1 },
          rx := { md.rx with state := RX_PEND } }).tty_out.data
        = md.tty_out.data ++ [SYM_DLE, SYM_ACK] ∧
      (client_msg_rx { md with
          dcnts := { md.dcnts with msg_rx := md.dcnts.msg_rx + 1 },
          rx := { md.rx with state := RX_PEND } }).rx.state = RX_IDLE ∧
      (client_msg_rx { md with
          dcnts := { md.dcnts with msg_rx := md.dcnts.msg_rx + 1 },
          rx := { md.rx with state := RX_PEND } }).rx.client = none) ∧
    (∀ k, find_addr md (md.rx.app.data.getD 0 0) = some k →
      (client_msg_rx { md with
          dcnts := { md.dcnts with msg_rx := md.dcnts.msg_rx + 1 },
          rx := { md.rx with state := RX_PEND } }).rx.client = some k ∧
      ((client_msg_rx { md with
          dcnts := { md.dcnts with msg_rx := md.dcnts.msg_rx + 1 },
          rx := { md.rx with state := RX_PEND } }).clients.getD k default).dcnts.msg_rx
        = (md.clients.getD k default).dcnts.msg_rx + 1) := by
  have hsp := client_msg_rx_spec
    { md with
        dcnts := { md.dcnts with msg_rx := md.dcnts.msg_rx + 1 },
        rx := { md.rx with state := RX_PEND } }
    (by exact hidx) (by exact hlen) (by exact htty)
  have hcongr : ∀ a, find_addr { md with
      dcnts := { md.dcnts with msg_rx := md.dcnts.msg_rx + 1 },
      rx := { md.rx with state := RX_PEND } } a = find_addr md a :=
    fun a => find_addr_congr _ md rfl a
  refine ⟨?_, ?_, ?_⟩
  · cases hfa : find_addr md (md.rx.app.data.getD 0 0) with
    | none =>
      have h := hsp.1 (by rw [hcongr]; exact hfa)
      exact h.2.2.2.2.1
    | some k =>
      have h := hsp.2 k (by rw [hcongr]; exact hfa)
      exact h.2.2
  · intro hfa
    have h := hsp.1 (by rw [hcongr]; exact hfa)
    exact ⟨h.1, h.2.1, h.2.2.1, h.2.2.2.1⟩
  · intro k hfa
    have h := hsp.2 k (by rw [hcongr]; exact hfa)
    exact ⟨h.1, h.2.1⟩

/-- C3: `accept_msg` classifies a completed inbound frame in order: a
payload shorter than 6 bytes is NAKed and counted in `runts` (before
duplicate detection — the fingerprint is untouched); else a checksum
mismatch is NAKed and counted in `bad_cs`; else, with duplicate detection
enabled and the payload bytes at offsets 1, 2, 4, 5 equal to the stored
fingerprint, the frame is ACKed without delivery to any client and counted
in `dups`; otherwise `msg_rx` is counted and the message is delivered
toward the client whose registered address equals the first payload byte
(an unknown destination is ACKed and counted; a found client index becomes
the receiver's back-pointer and its own `msg_rx` is counted). -/
theorem accept_msg_classification (conn : CONN)
    (hidx : conn.rx.app.index = 0)
    (htty : conn.tty_out.len + 2 ≤ conn.tty_out.max) :
    (conn.rx.app.len < 6 →
      (accept_msg conn).dcnts.runts = conn.dcnts.runts + 1 ∧
      (accept_msg conn).tty_out.data = conn.tty_out.data ++ [SYM_DLE, SYM_NAK] ∧
      (accept_msg conn).dcnts.dups = conn.dcnts.dups ∧
      (accept_msg conn).dcnts.bad_cs = conn.dcnts.bad_cs ∧
      (accept_msg conn).dcnts.msg_rx = conn.dcnts.msg_rx ∧
      (accept_msg conn).clients = conn.clients ∧
      (accept_msg conn).rx.state = RX_IDLE ∧
      (accept_msg conn).rx.dup0 = conn.rx.dup0 ∧
      (accept_msg conn).rx.dup1 = conn.rx.dup1 ∧
      (accept_msg conn).rx.dup2 = conn.rx.dup2 ∧
      (accept_msg conn).rx.dup3 = conn.rx.dup3) ∧
    (6 ≤ conn.rx.app.len → cs_ok conn = false →
      (accept_msg conn).dcnts.bad_cs = conn.dcnts.bad_cs + 1 ∧
      (accept_msg conn).tty_out.data = conn.tty_out.data ++ [SYM_DLE, SYM_NAK] ∧
      (accept_msg conn).dcnts.runts = conn.dcnts.runts ∧
      (accept_msg conn).dcnts.dups = conn.dcnts.dups ∧
      (accept_msg conn).dcnts.msg_rx = conn.dcnts.msg_rx ∧
      (accept_msg conn).clients = conn.clients ∧
      (accept_msg conn).rx.state = RX_IDLE ∧
      (accept_msg conn).rx.dup0 = conn.rx.dup0 ∧
      (accept_msg conn).rx.dup1 = conn.rx.dup1 ∧
      (accept_msg conn).rx.dup2 = conn.rx.dup2 ∧
      (accept_msg conn).rx.dup3 = conn.rx.dup3) ∧
    (6 ≤ conn.rx.app.len → cs_ok conn = true →
      conn.rx.dup_detect = true →
      conn.rx.app.data.getD 1 0 = conn.rx.dup0 →
      conn.rx.app.data.getD 2 0 = conn.rx.dup1 →
      conn.rx.app.data.getD 4 0 = conn.rx.dup2 →
      conn.rx.app.data.getD 5 0 = conn.rx.dup3 →
      (accept_msg conn).tty_out.data = conn.tty_out.data ++ [SYM_DLE, SYM_ACK] ∧
      (accept_msg conn).dcnts.dups = conn.dcnts.dups + 1 ∧
      (accept_msg conn).dcnts.msg_rx = conn.dcnts.msg_rx ∧
      (accept_msg conn).clients = conn.clients ∧
      (accept_msg conn).rx.client = none ∧
      (accept_msg conn).rx.state = RX_IDLE) ∧
    (6 ≤ conn.rx.app.len → cs_ok conn = true →
      ¬(conn.rx.dup_detect = true ∧
        conn.rx.app.data.getD 1 0 = conn.rx.dup0 ∧
        conn.rx.app.data.getD 2 0 = conn.rx.dup1 ∧
        conn.rx.app.data.getD 4 0 = conn.rx.dup2 ∧
        conn.rx.app.data.getD 5 0 = conn.rx.dup3) →
      (accept_msg conn).dcnts.msg_rx = conn.dcnts.msg_rx + 1 ∧
      (find_addr conn (conn.rx.app.data.getD 0 0) = none →
        (accept_msg conn).dcnts.unknown_dst = conn.dcnts.unknown_dst + 1 ∧
        (accept_msg conn).tty_out.data = conn.tty_out.data ++ [SYM_DLE, SYM_ACK] ∧
        (accept_msg conn).rx.state = RX_IDLE ∧
        (accept_msg conn).rx.client = none) ∧
      (∀ k, find_addr conn (conn.rx.app.data.getD 0 0) = some k →
        (accept_msg conn).rx.client = some k ∧
        ((accept_msg conn).clients.getD k default).dcnts.msg_rx
          = (conn.clients.getD k default).dcnts.msg_rx + 1)) := by
  refine ⟨?_, ?_, ?_, ?_⟩
  · intro hr
    have h1 : (conn.rx.app.len < 6) = True := eq_true hr
    have heq : accept_msg conn =
        rx_nak { conn with dcnts := { conn.dcnts with
                   runts := conn.dcnts.runts + 1 } } := by
      unfold accept_msg
      simp [h1]
    have heq2 := heq.trans (rx_nak_spec _ (by exact htty))
    rw [heq2]
    exact ⟨rfl, rfl, rfl, rfl, rfl, rfl, rfl, rfl, rfl, rfl, rfl⟩
  · intro h6 hcs
    have h1 : (conn.rx.app.len < 6) = False := eq_false (by omega)
    have heq : accept_msg conn =
        rx_nak { conn with dcnts := { conn.dcnts with
                   bad_cs := conn.dcnts.bad_cs + 1 } } := by
      unfold accept_msg
      simp [h1, hcs]
    have heq2 := heq.trans (rx_nak_spec _ (by exact htty))
    rw [heq2]
    exact ⟨rfl, rfl, rfl, rfl, rfl, rfl, rfl, rfl, rfl, rfl, rfl⟩
  · intro h6 hcs hdd hm1 hm2 hm3 hm4
    have h1 : (conn.rx.app.len < 6) = False := eq_false (by omega)
    obtain ⟨hsnd, htt, hcl, hap, hst, hclient, hdups, hmsgrx⟩ :=
      msg_dup_dup_spec conn hdd hm1 hm2 hm3 hm4
    have heq : accept_msg conn = rx_ack (msg_dup conn).1 := by
      unfold accept_msg
      simp [h1, hcs, hsnd]
    have heq2 := heq.trans (rx_ack_spec _ (by rw [htt]; exact htty))
    rw [heq2]
    refine ⟨?_, ?_, ?_, ?_, rfl, rfl⟩
    · rw [htt]
    · exact hdups
    · exact hmsgrx
    · exact hcl
  · intro h6 hcs hnd
    have h1 : (conn.rx.app.len < 6) = False := eq_false (by omega)
    obtain ⟨hsnd, htt, hcl, hap, hst, hclient, hcrc, hdc⟩ :=
      msg_dup_nondup_spec conn hnd
    have hds := deliver_step_spec (msg_dup conn).1
      (by rw [hap, hidx]) (by unfold BUF.len at h6 ⊢; rw [hap]; omega)
      (by rw [htt]; exact htty)
    have hfacongr : ∀ a, find_addr (msg_dup conn).1 a = find_addr conn a :=
      fun a => find_addr_congr _ conn hcl a
    have hdst : (msg_dup conn).1.rx.app.data.getD 0 0
        = conn.rx.app.data.getD 0 0 := by rw [hap]
    unfold accept_msg
    simp only [h1, if_false, Bool.false_eq_true, hcs, if_true, hsnd]
    refine ⟨?_, ?_, ?_⟩
    · exact hds.1.trans (by rw [hdc])
    · intro hfa
      have h := hds.2.1 (by rw [hdst, hfacongr]; exact hfa)
      exact ⟨h.1.trans (by rw [hdc]), h.2.1.trans (by rw [htt]),
             h.2.2.1, h.2.2.2⟩
    · intro k hfa
      have h := hds.2.2 k (by rw [hdst, hfacongr]; exact hfa)
      exact ⟨h.1, h.2.trans (by rw [hcl])⟩

/-- Witness for the C3 classification: on `deliverConn` (valid 6-byte
message, matching BCC, duplicate detection off, registered client at
address 5) `accept_msg` counts `msg_rx`, points the receiver at client 0
and counts that client's own `msg_rx`. -/
theorem accept_msg_classification_witness :
    (accept_msg deliverConn).dcnts.msg_rx = deliverConn.dcnts.msg_rx + 1 ∧
    (accept_msg deliverConn).rx.client = some 0 ∧
    ((accept_msg deliverConn).clients.getD 0 default).dcnts.msg_rx
      = (deliverConn.clients.getD 0 default).dcnts.msg_rx + 1 := by
  have h := accept_msg_classification deliverConn (by decide) (by decide)
  have h4 := h.2.2.2 (by decide) (by decide) (by decide)
  have hk := h4.2.2 0 (by decide)
  exact ⟨h4.1, hk.1, hk.2⟩

theorem stuff_length_le (B : List Nat) : (stuff B).length ≤ 2 * B.length := by
  induction B with
  | nil => simp [stuff]
  | cons b bs ih =>
    by_cases hd : b = SYM_DLE <;> simp [stuff, hd] <;> omega

theorem tx_fold_spec (u : Bool) (B : List Nat) :
    ∀ (m : BUF) (crc bcc : Nat) (ov : Bool),
    m.len + (stuff B).length ≤ m.max →
    (∀ b ∈ B, b < 256) →
    tx_fold u B m crc bcc ov
      = ({ m with data := m.data ++ stuff B },
         (if u then crc_fold crc B else crc),
         (if u then bcc else bcc_fold bcc B), ov) := by
  induction B with
  | nil =>
    intro m crc bcc ov hroom hb
    cases u <;> simp [tx_fold, stuff, crc_fold, bcc_fold]
  | cons b bs ih =>
    intro m crc bcc ov hroom hb
    have hb0 : b < 256 := hb b (List.mem_cons_self b bs)
    have hbs : ∀ x ∈ bs, x < 256 := fun x hx => hb x (List.mem_cons_of_mem b hx)
    have hstuffpos : 1 ≤ (stuff (b :: bs)).length := by
      by_cases hd : b = SYM_DLE <;> simp [stuff, hd]
    have hlt : m.len < m.max := by omega
    have hA : buf_append_byte m b = ({ m with data := m.data ++ [b] }, false) := by
      unfold buf_append_byte
      rw [if_neg (by omega), Nat.mod_eq_of_lt hb0]
    simp only [tx_fold, hA]
    by_cases hd : b = SYM_DLE
    · have hlen2 : (stuff (b :: bs)).length = 2 + (stuff bs).length := by
        simp [stuff, hd]
        omega
      have hB : buf_append_byte ({ m with data := m.data ++ [b] } : BUF) SYM_DLE
          = ({ m with data := (m.data ++ [b]) ++ [SYM_DLE] }, false) := by
        unfold buf_append_byte
        rw [if_neg (by simp only [BUF.len, List.length_append, List.length_cons,
              List.length_nil]; unfold BUF.len at hroom hlt; omega)]
        rfl
      rw [if_pos hd]
      simp only [hB]
      rw [ih ({ m with data := (m.data ++ [b]) ++ [SYM_DLE] }) _ _ _
        (by simp only [BUF.len, List.length_append, List.length_cons,
              List.length_nil]; unfold BUF.len at hroom; omega) hbs]
      cases u <;> simp [stuff, hd, crc_fold, bcc_fold]
    · rw [if_neg hd]
      rw [ih ({ m with data := m.data ++ [b] }) _ _ _
        (by simp only [BUF.len, List.length_append, List.length_cons,
              List.length_nil]
            unfold BUF.len at hroom
            have : (stuff (b :: bs)).length = 1 + (stuff bs).length := by
              simp [stuff, hd]
              omega
            omega) hbs]
      cases u <;> simp [stuff, hd, crc_fold, bcc_fold]

theorem crc_fold_snoc (B : List Nat) (a v : Nat) :
    crc_fold a (B ++ [v]) = CRC_ADD (crc_fold a B) v := by
  rw [crc_fold, List.foldl_append]
  rfl

theorem tx_assemble_spec (conn : CONN) (i : Nat) (P : List Nat)
    (hP : (conn.clients.getD i default).df1_tx.data.drop
            (conn.clients.getD i default).df1_tx.index = P)
    (hroom : conn.tx.msg.len + (stuff P).length + 6 ≤ conn.tx.msg.max)
    (hb : ∀ b ∈ P, b < 256) :
    tx_assemble conn i
      = { updClient conn i (fun c => { c with df1_tx.index := c.df1_tx.data.length }) with
            tx.msg := { conn.tx.msg with
                          data := conn.tx.msg.data ++ encode_df1_frame conn.use_crc P },
            tx.client := some i } := by
  have e1 : buf_append_byte conn.tx.msg SYM_DLE
      = ({ conn.tx.msg with data := conn.tx.msg.data ++ [SYM_DLE] }, false) := by
    unfold buf_append_byte
    rw [if_neg (by omega)]
    rfl
  have e2 : buf_append_byte ({ conn.tx.msg with
        data := conn.tx.msg.data ++ [SYM_DLE] } : BUF) SYM_STX
      = ({ conn.tx.msg with data := conn.tx.msg.data ++ [SYM_DLE, SYM_STX] }, false) := by
    unfold buf_append_byte
    rw [if_neg (by simp only [BUF.len, List.length_append, List.length_cons,
          List.length_nil]; unfold BUF.len at hroom; omega)]
    simp [SYM_STX]
  have hfold := tx_fold_spec conn.use_crc P
    ({ conn.tx.msg with data := conn.tx.msg.data ++ [SYM_DLE, SYM_STX] } : BUF) 0 0 false
    (by simp only [BUF.len, List.length_append, List.length_cons, List.length_nil]
        unfold BUF.len at hroom; omega) hb
  have e4 : buf_append_byte ({ conn.tx.msg with
        data := (conn.tx.msg.data ++ [SYM_DLE, SYM_STX]) ++ stuff P } : BUF) SYM_DLE
      = ({ conn.tx.msg with
             data := ((conn.tx.msg.data ++ [SYM_DLE, SYM_STX]) ++ stuff P) ++ [SYM_DLE] },
         false) := by
    unfold buf_append_byte
    rw [if_neg (by simp only [BUF.len, List.length_append, List.length_cons,
          List.length_nil]; unfold BUF.len at hroom; omega)]
    rfl
  have e5 : buf_append_byte ({ conn.tx.msg with
        data := ((conn.tx.msg.data ++ [SYM_DLE, SYM_STX]) ++ stuff P) ++ [SYM_DLE] } : BUF)
        SYM_ETX
      = ({ conn.tx.msg with
             data := (((conn.tx.msg.data ++ [SYM_DLE, SYM_STX]) ++ stuff P) ++ [SYM_DLE])
                       ++ [SYM_ETX] }, false) := by
    unfold buf_append_byte
    rw [if_neg (by simp only [BUF.len, List.length_append, List.length_cons,
          List.length_nil]; unfold BUF.len at hroom; omega)]
    rfl
  unfold tx_assemble
  simp only [hP, e1, e2, Bool.or_self, hfold, e4, e5]
  simp only [updClient]
  by_cases hu : conn.use_crc = true
  · have e6 : buf_append_word ({ conn.tx.msg with
          data := conn.tx.msg.data ++ [SYM_DLE, SYM_STX] ++ stuff P ++ [SYM_DLE]
                    ++ [SYM_ETX] } : BUF) (CRC_ADD (crc_fold 0 P) SYM_ETX)
        = ({ conn.tx.msg with
               data := conn.tx.msg.data ++ [SYM_DLE, SYM_STX] ++ stuff P ++ [SYM_DLE]
                         ++ [SYM_ETX]
                         ++ [CRC_ADD (crc_fold 0 P) SYM_ETX % 256,
                             CRC_ADD (crc_fold 0 P) SYM_ETX / 256 % 256] }, false) := by
      unfold buf_append_word
      rw [if_neg (by simp only [BUF.len, List.length_append, List.length_cons,
            List.length_nil]; unfold BUF.len at hroom; omega)]
    simp only [hu, if_true, e6]
    simp [encode_df1_frame, checksum_bytes, crc_fold_snoc, List.append_assoc]
  · have hmod : bcc_out (bcc_fold 0 P) % 256 = bcc_out (bcc_fold 0 P) := by
      unfold bcc_out
      omega
    have e6 : buf_append_byte ({ conn.tx.msg with
          data := conn.tx.msg.data ++ [SYM_DLE, SYM_STX] ++ stuff P ++ [SYM_DLE]
                    ++ [SYM_ETX] } : BUF) (bcc_out (bcc_fold 0 P))
        = ({ conn.tx.msg with
               data := conn.tx.msg.data ++ [SYM_DLE, SYM_STX] ++ stuff P ++ [SYM_DLE]
                         ++ [SYM_ETX] ++ [bcc_out (bcc_fold 0 P)] }, false) := by
      unfold buf_append_byte
      rw [if_neg (by simp only [BUF.len, List.length_append, List.length_cons,
            List.length_nil]; unfold BUF.len at hroom; omega)]
      rw [hmod]
    simp only [hu, if_false, Bool.false_eq_true, e6]
    simp [encode_df1_frame, checksum_bytes, List.append_assoc, hu]

theorem send_msg_fits (fu : Nat) (conn : CONN)
    (hroom : conn.tty_out.len + conn.tx.msg.len ≤ conn.tty_out.max) :
    send_msg (fu + 1) conn
      = { conn with
            tx.state := TX_PEND_MSG_TX,
            tty_out := { conn.tty_out with
                           data := conn.tty_out.data ++ conn.tx.msg.data } } := by
  have e : buf_append_buf conn.tty_out conn.tx.msg
      = ({ conn.tty_out with data := conn.tty_out.data ++ conn.tx.msg.data }, false) := by
    unfold buf_append_buf
    rw [if_neg (by omega)]
  unfold send_msg
  simp only [e]

theorem send_msg_overflow (fu : Nat) (conn : CONN)
    (hover : conn.tty_out.max < conn.tty_out.len + conn.tx.msg.len) :
    send_msg (fu + 1) conn
      = client_msg_tx_fail fu { conn with tx := flush_msg conn.tx } := by
  have e : buf_append_buf conn.tty_out conn.tx.msg = (conn.tty_out, true) := by
    unfold buf_append_buf
    rw [if_pos (by omega)]
  unfold send_msg
  simp only [e]
  have hf : flush_msg { conn.tx with state := TX_PEND_MSG_TX } = flush_msg conn.tx := rfl
  rw [hf]

theorem encode_length_le (u : Bool) (B : List Nat) (hlen : B.length ≤ 236) :
    (encode_df1_frame u B).length ≤ 478 := by
  have := stuff_length_le B
  cases u <;> simp [encode_df1_frame, checksum_bytes] <;> omega

theorem tx_submit_spec (u : Bool) (B : List Nat)
    (hlen : B.length ≤ 236) (hb : ∀ b ∈ B, b < 256) :
    (tx_submit u B).tty_out.data = encode_df1_frame u B ∧
    (tx_submit u B).tx.state = TX_PEND_MSG_TX ∧
    (tx_submit u B).tx.client = some 0 := by
  have hstuff := stuff_length_le B
  have henc := encode_length_le u B hlen
  have hasm := tx_assemble_spec (txConn u B) 0 B
    (by simp [txConn, mkClientWith])
    (by simp [txConn, tx_init, buf_new, BUF.len, mkClientWith]; omega) hb
  have huc : (txConn u B).use_crc = u := rfl
  rw [huc] at hasm
  have h1 : tx_submit u B
      = updClient (tx_msg 3 (txConn u B) 0) 0 (fun c =>
          { c with df1_tx := buf_empty c.df1_tx, state := CLIENT_MSG_PEND,
                   dcnts.tx_attempts := c.dcnts.tx_attempts + 1 }) := rfl
  have h2 : tx_msg 3 (txConn u B) 0
      = { send_msg (1 + 1) (tx_assemble (txConn u B) 0) with
            dcnts.tx_attempts :=
              (send_msg (1 + 1) (tx_assemble (txConn u B) 0)).dcnts.tx_attempts + 1 } := rfl
  have hroomA : (tx_assemble (txConn u B) 0).tty_out.len
        + (tx_assemble (txConn u B) 0).tx.msg.len
      ≤ (tx_assemble (txConn u B) 0).tty_out.max := by
    rw [hasm]
    simp [updClient, txConn, tx_init, buf_new, mkClientWith, BUF.len]
    omega
  have hsend := send_msg_fits 1 (tx_assemble (txConn u B) 0) hroomA
  rw [h1, h2, hsend, hasm]
  refine ⟨?_, ?_, ?_⟩ <;>
    simp [updClient, listModify, txConn, tx_init, buf_new, mkClientWith]

theorem crc_shift_lt (c : Nat) (h : c < 65536) : crc_shift c < 65536 := by
  unfold crc_shift
  split
  · have h1 : c / 2 < 2 ^ 16 := by omega
    have h2 : (0xa001 : Nat) < 2 ^ 16 := by norm_num
    have h3 : Nat.xor (c / 2) 0xa001 = (c / 2) ^^^ 0xa001 := rfl
    rw [h3]
    have := Nat.xor_lt_two_pow h1 h2
    omega
  · omega

theorem crc_shift_iter_lt (n : Nat) : ∀ (c : Nat), c < 65536 → crc_shift^[n] c < 65536 := by
  induction n with
  | zero => intro c h; simpa using h
  | succ n ih =>
    intro c h
    rw [Function.iterate_succ_apply]
    exact ih _ (crc_shift_lt c h)

theorem CRC_ADD_lt (c v : Nat) (hc : c < 65536) (hv : v < 65536) :
    CRC_ADD c v < 65536 := by
  unfold CRC_ADD
  have h1 : c < 2 ^ 16 := by omega
  have h2 : v < 2 ^ 16 := by omega
  have h3 : Nat.xor c v = c ^^^ v := rfl
  rw [h3]
  have := Nat.xor_lt_two_pow h1 h2
  exact crc_shift_iter_lt 8 _ (by omega)

theorem crc_fold_lt (bs : List Nat) : ∀ (a : Nat), a < 65536 →
    (∀ b ∈ bs, b < 65536) → crc_fold a bs < 65536 := by
  induction bs with
  | nil => intro a ha _; simpa [crc_fold] using ha
  | cons b bs ih =>
    intro a ha hb
    have h1 : crc_fold a (b :: bs) = crc_fold (CRC_ADD a b) bs := rfl
    rw [h1]
    exact ih _ (CRC_ADD_lt a b ha (hb b (List.mem_cons_self b bs)))
      (fun x hx => hb x (List.mem_cons_of_mem b hx))

theorem cs_add_proj (conn : CONN) (b : Nat) :
    (cs_add conn b).use_crc = conn.use_crc ∧
    (cs_add conn b).rx.msg_cs = conn.rx.msg_cs ∧
    (cs_add conn b).rx.acc_cs
      = (if conn.use_crc then CRC_ADD conn.rx.acc_cs b
         else (conn.rx.acc_cs + b) % 256) := by
  unfold cs_add
  split
  · simp_all
  · simp_all

theorem cs_run_proj (bs : List Nat) : ∀ (conn : CONN),
    (cs_run conn bs).use_crc = conn.use_crc ∧
    (cs_run conn bs).rx.msg_cs = conn.rx.msg_cs ∧
    (cs_run conn bs).rx.acc_cs
      = (if conn.use_crc then crc_fold conn.rx.acc_cs bs
         else bcc_fold conn.rx.acc_cs bs) := by
  induction bs with
  | nil =>
    intro conn
    refine ⟨rfl, rfl, ?_⟩
    cases h : conn.use_crc <;> simp [cs_run, crc_fold, bcc_fold]
  | cons b bs ih =>
    intro conn
    have h1 : cs_run conn (b :: bs) = cs_run (cs_add conn b) bs := rfl
    obtain ⟨hu, hm, ha⟩ := ih (cs_add conn b)
    obtain ⟨hu0, hm0, ha0⟩ := cs_add_proj conn b
    rw [h1]
    refine ⟨hu.trans hu0, hm.trans hm0, ?_⟩
    rw [ha, hu0, ha0]
    cases h : conn.use_crc <;> simp [crc_fold, bcc_fold]

/-- C2: the checksum `tx_msg` appends after `DLE ETX` is, in CRC mode, the
CRC-16 (polynomial 0xa001, reflected, initial value 0) over the payload
followed by the ETX byte, emitted little-endian; in BCC mode one byte equal
to the two's complement of the 8-bit sum of the payload only; and the
receiver's checksum accumulated with `cs_add` over the same bytes passes
`cs_ok` against exactly that trailer value. -/

theorem tx_checksum_spec (u : Bool) (B : List Nat)
    (hlen : B.length ≤ 236) (hb : ∀ b ∈ B, b < 256) :
    (tx_submit u B).tty_out.data
      = [SYM_DLE, SYM_STX] ++ stuff B ++ [SYM_DLE, SYM_ETX] ++ checksum_bytes u B ∧
    checksum_bytes true B
      = [crc_fold 0 (B ++ [SYM_ETX]) % 256, crc_fold 0 (B ++ [SYM_ETX]) / 256 % 256] ∧
    checksum_bytes false B = [bcc_out (bcc_fold 0 B)] ∧
    (bcc_fold 0 B + bcc_out (bcc_fold 0 B)) % 256 = 0 ∧
    (∀ conn : CONN, conn.use_crc = u →
      cs_ok { cs_run { conn with rx.acc_cs := 0 }
                (B ++ if u then [SYM_ETX] else []) with
              rx.msg_cs := (checksum_bytes u B).getD 0 0
                             + 256 * (checksum_bytes u B).getD 1 0 } = true) := by
  refine ⟨(tx_submit_spec u B hlen hb).1.trans (by simp [encode_df1_frame]), ?_, ?_, ?_, ?_⟩
  · simp [checksum_bytes]
  · simp [checksum_bytes]
  · unfold bcc_out
    omega
  · intro conn hu
    obtain ⟨hu', hm', ha'⟩ :=
      cs_run_proj (B ++ if u then [SYM_ETX] else []) ({ conn with rx.acc_cs := 0 })
    have p1 : ({ cs_run ({ conn with rx.acc_cs := 0 })
          (B ++ if u then [SYM_ETX] else []) with
        rx.msg_cs := (checksum_bytes u B).getD 0 0
          + 256 * (checksum_bytes u B).getD 1 0 } : CONN).use_crc
        = (cs_run ({ conn with rx.acc_cs := 0 })
            (B ++ if u then [SYM_ETX] else [])).use_crc := rfl
    have p2 : ({ cs_run ({ conn with rx.acc_cs := 0 })
          (B ++ if u then [SYM_ETX] else []) with
        rx.msg_cs := (checksum_bytes u B).getD 0 0
          + 256 * (checksum_bytes u B).getD 1 0 } : CONN).rx.acc_cs
        = (cs_run ({ conn with rx.acc_cs := 0 })
            (B ++ if u then [SYM_ETX] else [])).rx.acc_cs := rfl
    have p3 : ({ cs_run ({ conn with rx.acc_cs := 0 })
          (B ++ if u then [SYM_ETX] else []) with
        rx.msg_cs := (checksum_bytes u B).getD 0 0
          + 256 * (checksum_bytes u B).getD 1 0 } : CONN).rx.msg_cs
        = (checksum_bytes u B).getD 0 0
          + 256 * (checksum_bytes u B).getD 1 0 := rfl
    unfold cs_ok
    rw [p1, p2, p3, hu', ha']
    have hy : ({ conn with rx.acc_cs := 0 } : CONN).use_crc = u := by
      rw [show ({ conn with rx.acc_cs := 0 } : CONN).use_crc = conn.use_crc from rfl, hu]
    rw [hy]
    cases u
    · simp [checksum_bytes]
    · have hclt : crc_fold 0 (B ++ [SYM_ETX]) < 65536 := by
        refine crc_fold_lt _ 0 (by omega) ?_
        intro b hbb
        rcases List.mem_append.1 hbb with hbl | hbr
        · have := hb b hbl
          omega
        · simp [SYM_ETX] at hbr
          omega
      simp [checksum_bytes]
      omega

/-- Witness for `tx_checksum_spec`: the 7-byte payload `05 00 06 00 42 10 07`
(containing one DLE) in CRC mode, plus the BCC complement identity. -/

theorem tx_checksum_spec_witness :
    (tx_submit true [5, 0, 6, 0, 66, 16, 7]).tty_out.data
      = [SYM_DLE, SYM_STX] ++ stuff [5, 0, 6, 0, 66, 16, 7] ++ [SYM_DLE, SYM_ETX]
        ++ checksum_bytes true [5, 0, 6, 0, 66, 16, 7] ∧
    (bcc_fold 0 [5, 0, 6, 0, 66, 16, 7]
      + bcc_out (bcc_fold 0 [5, 0, 6, 0, 66, 16, 7])) % 256 = 0 := by
  have h := tx_checksum_spec true [5, 0, 6, 0, 66, 16, 7] (by decide) (by decide)
  exact ⟨h.1, h.2.2.2.1⟩

theorem rx_step_data (fuel gas : Nat) (base : CONN) (ti : Nat) (ad : List Nat)
    (acc mcs : Nat) (b : Nat)
    (hti : ti < base.tty_in.data.length)
    (hbyte : base.tty_in.data.getD ti 0 = b)
    (hbD : b ≠ SYM_DLE)
    (hblt : b < 256)
    (hroom : ad.length < base.rx.app.max) :
    rx_msg_loop fuel (gas + 1) (rxSt base RX_APP false ti ad acc mcs)
      = rx_msg_loop fuel gas (rxSt base RX_APP false (ti + 1) (ad ++ [b])
          (if base.use_crc then CRC_ADD acc b else (acc + b) % 256) mcs) := by
  have hne : ¬(base.tty_in.data.length = ti) := by omega
  have hbyte2 : base.tty_in.data[ti]?.getD 0 = b := by
    simpa [List.getD_eq_getElem?_getD] using hbyte
  have e : buf_get_byte (rxSt base RX_APP false ti ad acc mcs).tty_in
      = some (b, ({ base.tty_in with index := ti + 1 } : BUF)) := by
    simp [buf_get_byte, rxSt, BUF.len, hne, hbyte2]
  simp only [rx_msg_loop, e]
  simp only [add_to_app]
  have e2 : buf_append_byte ({ base.rx.app with data := ad } : BUF) b
      = ({ base.rx.app with data := ad ++ [b] }, false) := by
    unfold buf_append_byte
    rw [if_neg (by simp only [BUF.len]; omega), Nat.mod_eq_of_lt hblt]
  simp only [hbD, e2, cs_add]
  simp only [SYM_ETX, SYM_DLE, SYM_ACK, SYM_NAK] at hbD ⊢
  cases hcrc : base.use_crc <;>
    simp [rxSt, hcrc, hbD, e2, cs_add]

theorem rx_step_dle1 (fuel gas : Nat) (base : CONN) (ti : Nat) (ad : List Nat)
    (acc mcs : Nat)
    (hti : ti < base.tty_in.data.length)
    (hbyte : base.tty_in.data.getD ti 0 = SYM_DLE) :
    rx_msg_loop fuel (gas + 1) (rxSt base RX_APP false ti ad acc mcs)
      = rx_msg_loop fuel gas (rxSt base RX_APP true (ti + 1) ad acc mcs) := by
  have hne : ¬(base.tty_in.data.length = ti) := by omega
  have hbyte2 : base.tty_in.data[ti]?.getD 0 = SYM_DLE := by
    simpa [List.getD_eq_getElem?_getD] using hbyte
  have e : buf_get_byte (rxSt base RX_APP false ti ad acc mcs).tty_in
      = some (SYM_DLE, ({ base.tty_in with index := ti + 1 } : BUF)) := by
    simp [buf_get_byte, rxSt, BUF.len, hne, hbyte2]
  simp only [rx_msg_loop, e]
  simp only [add_to_app]
  simp [rxSt, SYM_DLE, SYM_ETX]

theorem rx_step_dle2 (fuel gas : Nat) (base : CONN) (ti : Nat) (ad : List Nat)
    (acc mcs : Nat)
    (hti : ti < base.tty_in.data.length)
    (hbyte : base.tty_in.data.getD ti 0 = SYM_DLE)
    (hroom : ad.length < base.rx.app.max) :
    rx_msg_loop fuel (gas + 1) (rxSt base RX_APP true ti ad acc mcs)
      = rx_msg_loop fuel gas (rxSt base RX_APP false (ti + 1) (ad ++ [SYM_DLE])
          (if base.use_crc then CRC_ADD acc SYM_DLE else (acc + SYM_DLE) % 256) mcs) := by
  have hne : ¬(base.tty_in.data.length = ti) := by omega
  have hbyte2 : base.tty_in.data[ti]?.getD 0 = SYM_DLE := by
    simpa [List.getD_eq_getElem?_getD] using hbyte
  have e : buf_get_byte (rxSt base RX_APP true ti ad acc mcs).tty_in
      = some (SYM_DLE, ({ base.tty_in with index := ti + 1 } : BUF)) := by
    simp [buf_get_byte, rxSt, BUF.len, hne, hbyte2]
  simp only [rx_msg_loop, e]
  simp only [add_to_app]
  have e2 : buf_append_byte ({ base.rx.app with data := ad } : BUF) 16
      = ({ base.rx.app with data := ad ++ [16] }, false) := by
    unfold buf_append_byte
    rw [if_neg (by simp only [BUF.len]; omega)]
  cases hcrc : base.use_crc <;>
    simp [rxSt, hcrc, SYM_DLE, SYM_ETX, SYM_ACK, SYM_NAK, e2, cs_add]

theorem rx_step_term (fuel gas : Nat) (base : CONN) (ti : Nat) (ad : List Nat)
    (acc mcs : Nat)
    (hti : ti < base.tty_in.data.length)
    (hbyte : base.tty_in.data.getD ti 0 = SYM_ETX) :
    rx_msg_loop fuel (gas + 1) (rxSt base RX_APP true ti ad acc mcs)
      = rx_msg_loop fuel gas (rxSt base RX_CS1 true (ti + 1) ad
          (if base.use_crc then CRC_ADD acc SYM_ETX else acc) mcs) := by
  have hne : ¬(base.tty_in.data.length = ti) := by omega
  have hbyte2 : base.tty_in.data[ti]?.getD 0 = SYM_ETX := by
    simpa [List.getD_eq_getElem?_getD] using hbyte
  have e : buf_get_byte (rxSt base RX_APP true ti ad acc mcs).tty_in
      = some (SYM_ETX, ({ base.tty_in with index := ti + 1 } : BUF)) := by
    simp [buf_get_byte, rxSt, BUF.len, hne, hbyte2]
  simp only [rx_msg_loop, e]
  simp only [add_to_app, cs_add]
  cases hcrc : base.use_crc <;>
    simp [rxSt, hcrc, SYM_ETX]

theorem rx_step_cs1_crc (fuel gas : Nat) (base : CONN) (pd : Bool) (ti : Nat)
    (ad : List Nat) (acc mcs b : Nat)
    (hti : ti < base.tty_in.data.length)
    (hbyte : base.tty_in.data.getD ti 0 = b)
    (hu : base.use_crc = true) :
    rx_msg_loop fuel (gas + 1) (rxSt base RX_CS1 pd ti ad acc mcs)
      = rx_msg_loop fuel gas (rxSt base RX_CS2 pd (ti + 1) ad acc b) := by
  have hne : ¬(base.tty_in.data.length = ti) := by omega
  have hbyte2 : base.tty_in.data[ti]?.getD 0 = b := by
    simpa [List.getD_eq_getElem?_getD] using hbyte
  have e : buf_get_byte (rxSt base RX_CS1 pd ti ad acc mcs).tty_in
      = some (b, ({ base.tty_in with index := ti + 1 } : BUF)) := by
    simp [buf_get_byte, rxSt, BUF.len, hne, hbyte2]
  simp only [rx_msg_loop, e]
  simp [rxSt, hu]

theorem rx_step_cs1_bcc (fuel gas : Nat) (base : CONN) (pd : Bool) (ti : Nat)
    (ad : List Nat) (acc mcs b : Nat)
    (hti : ti < base.tty_in.data.length)
    (hbyte : base.tty_in.data.getD ti 0 = b)
    (hu : base.use_crc = false) :
    rx_msg_loop fuel (gas + 1) (rxSt base RX_CS1 pd ti ad acc mcs)
      = accept_msg (rxSt base RX_CS1 pd (ti + 1) ad acc b) := by
  have hne : ¬(base.tty_in.data.length = ti) := by omega
  have hbyte2 : base.tty_in.data[ti]?.getD 0 = b := by
    simpa [List.getD_eq_getElem?_getD] using hbyte
  have e : buf_get_byte (rxSt base RX_CS1 pd ti ad acc mcs).tty_in
      = some (b, ({ base.tty_in with index := ti + 1 } : BUF)) := by
    simp [buf_get_byte, rxSt, BUF.len, hne, hbyte2]
  simp only [rx_msg_loop, e]
  simp [rxSt, hu]

theorem rx_step_cs2 (fuel gas : Nat) (base : CONN) (pd : Bool) (ti : Nat)
    (ad : List Nat) (acc mcs b : Nat)
    (hti : ti < base.tty_in.data.length)
    (hbyte : base.tty_in.data.getD ti 0 = b) :
    rx_msg_loop fuel (gas + 1) (rxSt base RX_CS2 pd ti ad acc mcs)
      = accept_msg (rxSt base RX_CS2 pd (ti + 1) ad acc ((mcs + b * 256) % 65536)) := by
  have hne : ¬(base.tty_in.data.length = ti) := by omega
  have hbyte2 : base.tty_in.data[ti]?.getD 0 = b := by
    simpa [List.getD_eq_getElem?_getD] using hbyte
  have e : buf_get_byte (rxSt base RX_CS2 pd ti ad acc mcs).tty_in
      = some (b, ({ base.tty_in with index := ti + 1 } : BUF)) := by
    simp [buf_get_byte, rxSt, BUF.len, hne, hbyte2]
  simp only [rx_msg_loop, e]
  simp [rxSt]

theorem rxSt_congr (base : CONN) (st : RX_STATE_T) (pd : Bool) {t t' : Nat}
    {d d' : List Nat} {a a' m m' : Nat}
    (ht : t = t') (hd : d = d') (ha : a = a') (hm : m = m') :
    rxSt base st pd t d a m = rxSt base st pd t' d' a' m' := by
  rw [ht, hd, ha, hm]

theorem rx_app_run (fuel : Nat) (M : List Nat) :
    ∀ (g : Nat) (base : CONN) (pre rest ad : List Nat) (acc mcs : Nat),
    base.tty_in.data = pre ++ stuff M ++ rest →
    (∀ b ∈ M, b < 256) →
    ad.length + M.length ≤ base.rx.app.max →
    rx_msg_loop fuel ((stuff M).length + g)
        (rxSt base RX_APP false pre.length ad acc mcs)
      = rx_msg_loop fuel g
          (rxSt base RX_APP false (pre.length + (stuff M).length) (ad ++ M)
            (if base.use_crc then crc_fold acc M else bcc_fold acc M) mcs) := by
  induction M with
  | nil =>
    intro g base pre rest ad acc mcs hdata hb hroom
    have hif : (if base.use_crc then crc_fold acc [] else bcc_fold acc []) = acc := by
      cases base.use_crc <;> rfl
    have h1 : (stuff ([] : List Nat)).length = 0 := rfl
    rw [h1, hif, List.append_nil, Nat.add_zero, Nat.zero_add]
  | cons b M ih =>
    intro g base pre rest ad acc mcs hdata hb hroom
    have hbmem : b < 256 := hb b (List.mem_cons_self b M)
    have hbM : ∀ x ∈ M, x < 256 := fun x hx => hb x (List.mem_cons_of_mem b hx)
    by_cases hd : b = SYM_DLE
    · subst hd
      have hs : stuff (SYM_DLE :: M) = SYM_DLE :: SYM_DLE :: stuff M := by
        simp [stuff]
      have hlen : (stuff (SYM_DLE :: M)).length + g = (((stuff M).length + g) + 1) + 1 := by
        rw [hs]
        simp
        omega
      rw [hlen]
      have hti1 : pre.length < base.tty_in.data.length := by
        rw [hdata, hs]
        simp
      have hb1 : base.tty_in.data.getD pre.length 0 = SYM_DLE := by
        rw [hdata, hs]
        have := getD_append_off pre ((SYM_DLE :: SYM_DLE :: stuff M) ++ rest) 0
        simpa using this
      rw [rx_step_dle1 fuel _ base pre.length ad acc mcs hti1 hb1]
      have hti2 : pre.length + 1 < base.tty_in.data.length := by
        rw [hdata, hs]
        simp
      have hb2 : base.tty_in.data.getD (pre.length + 1) 0 = SYM_DLE := by
        rw [hdata, hs]
        have := getD_append_off pre ((SYM_DLE :: SYM_DLE :: stuff M) ++ rest) 1
        simpa using this
      have hroom1 : ad.length < base.rx.app.max := by
        simp at hroom
        omega
      rw [rx_step_dle2 fuel _ base (pre.length + 1) ad acc mcs hti2 hb2 hroom1]
      have hdata2 : base.tty_in.data = (pre ++ [SYM_DLE, SYM_DLE]) ++ stuff M ++ rest := by
        rw [hdata, hs]
        simp
      have hroom2 : (ad ++ [SYM_DLE]).length + M.length ≤ base.rx.app.max := by
        simp at hroom ⊢
        omega
      have ihh := ih g base (pre ++ [SYM_DLE, SYM_DLE]) rest (ad ++ [SYM_DLE])
        (if base.use_crc then CRC_ADD acc SYM_DLE else (acc + SYM_DLE) % 256) mcs
        hdata2 hbM hroom2
      rw [show (pre.length + 1 + 1 : Nat) = (pre ++ [SYM_DLE, SYM_DLE]).length from by simp]
      rw [ihh]
      refine congrArg (rx_msg_loop fuel g) (rxSt_congr base _ _ ?_ ?_ ?_ rfl)
      · rw [hs]
        simp
        omega
      · simp
      · cases hu : base.use_crc <;> simp [hu, crc_fold, bcc_fold]
    · have hs : stuff (b :: M) = b :: stuff M := by
        simp [stuff, hd]
      have hlen : (stuff (b :: M)).length + g = ((stuff M).length + g) + 1 := by
        rw [hs]
        simp
        omega
      rw [hlen]
      have hti1 : pre.length < base.tty_in.data.length := by
        rw [hdata, hs]
        simp
      have hb1 : base.tty_in.data.getD pre.length 0 = b := by
        rw [hdata, hs]
        have := getD_append_off pre ((b :: stuff M) ++ rest) 0
        simpa using this
      have hroom1 : ad.length < base.rx.app.max := by
        simp at hroom
        omega
      rw [rx_step_data fuel _ base pre.length ad acc mcs b hti1 hb1 hd hbmem hroom1]
      have hdata2 : base.tty_in.data = (pre ++ [b]) ++ stuff M ++ rest := by
        rw [hdata, hs]
        simp
      have hroom2 : (ad ++ [b]).length + M.length ≤ base.rx.app.max := by
        simp at hroom ⊢
        omega
      have ihh := ih g base (pre ++ [b]) rest (ad ++ [b])
        (if base.use_crc then CRC_ADD acc b else (acc + b) % 256) mcs
        hdata2 hbM hroom2
      rw [show (pre.length + 1 : Nat) = (pre ++ [b]).length from by simp]
      rw [ihh]
      refine congrArg (rx_msg_loop fuel g) (rxSt_congr base _ _ ?_ ?_ ?_ rfl)
      · rw [hs]
        simp
        omega
      · simp
      · cases hu : base.use_crc <;> simp [hu, crc_fold, bcc_fold]

theorem parse_tty_done (fuel g : Nat) (conn : CONN)
    (hact : rx_active conn.rx = false)
    (hdone : conn.tty_in.index = conn.tty_in.len) :
    parse_tty_loop fuel (g + 1) conn = conn := by
  have e : buf_get_byte conn.tty_in = none := by
    unfold buf_get_byte
    rw [if_pos hdone.symm]
  unfold parse_tty_loop
  simp [hact, e]

theorem parse_step_dle (fuel g : Nat) (base : CONN) (ti : Nat)
    (hact : rx_active base.rx = false)
    (hti : ti < base.tty_in.data.length)
    (hbyte : base.tty_in.data.getD ti 0 = SYM_DLE) :
    parse_tty_loop fuel (g + 1) (pSt base false ti)
      = parse_tty_loop fuel g (pSt base true (ti + 1)) := by
  have hne : ¬(base.tty_in.data.length = ti) := by omega
  have hbyte2 : base.tty_in.data[ti]?.getD 0 = SYM_DLE := by
    simpa [List.getD_eq_getElem?_getD] using hbyte
  have e : buf_get_byte ({ base.tty_in with index := ti } : BUF)
      = some (SYM_DLE, ({ base.tty_in with index := ti + 1 } : BUF)) := by
    simp [buf_get_byte, BUF.len, hne, hbyte2]
  simp only [parse_tty_loop]
  simp [hact, e, parse_link_byte, SYM_DLE, pSt]

theorem parse_step_stx (fuel g : Nat) (base : CONN) (ti : Nat)
    (hact : rx_active base.rx = false)
    (hti : ti < base.tty_in.data.length)
    (hbyte : base.tty_in.data.getD ti 0 = SYM_STX) :
    parse_tty_loop fuel (g + 1) (pSt base true ti)
      = parse_tty_loop fuel g (rx_msg fuel (pSt base false (ti + 1))) := by
  have hne : ¬(base.tty_in.data.length = ti) := by omega
  have hbyte2 : base.tty_in.data[ti]?.getD 0 = SYM_STX := by
    simpa [List.getD_eq_getElem?_getD] using hbyte
  have e : buf_get_byte ({ base.tty_in with index := ti } : BUF)
      = some (SYM_STX, ({ base.tty_in with index := ti + 1 } : BUF)) := by
    simp [buf_get_byte, BUF.len, hne, hbyte2]
  simp only [parse_tty_loop]
  simp [hact, e, SYM_STX, pSt]

theorem rx_msg_entry (fuel : Nat) (base : CONN) (ti : Nat)
    (hst : base.rx.state = RX_IDLE)
    (happ : base.rx.app.index = 0)
    (heti : base.rx.eticks = 0) :
    rx_msg fuel (pSt base false ti)
      = rx_msg_loop fuel (base.tty_in.data.length - ti)
          (rxSt (pSt base false ti) RX_APP false ti [] 0 base.rx.msg_cs) := by
  have hst2 : (pSt base false ti).rx.state = RX_IDLE := hst
  unfold rx_msg
  simp only [hst2, eq_self_iff_true, if_true]
  congr 1
  simp [pSt, rxSt, cs_clear, buf_empty, BUF.len, happ, heti]

theorem rx_nak_proj (c : CONN) :
    (rx_nak c).rx.app = c.rx.app ∧ rx_active (rx_nak c).rx = false ∧
    (rx_nak c).tty_in = c.tty_in := by
  unfold rx_nak
  rcases h1 : buf_append_byte c.tty_out SYM_DLE with ⟨t1, e1⟩
  cases e1 <;> simp [h1, rx_set_nak, rx_active]

theorem rx_ack_proj (c : CONN) :
    (rx_ack c).rx.app = c.rx.app ∧ rx_active (rx_ack c).rx = false ∧
    (rx_ack c).tty_in = c.tty_in := by
  unfold rx_ack
  rcases h1 : buf_append_byte c.tty_out SYM_DLE with ⟨t1, e1⟩
  cases e1 <;> simp [h1, rx_active]

theorem accept_stage (base : CONN) (st : RX_STATE_T) (pd : Bool) (ti : Nat)
    (B : List Nat) (acc mcs : Nat)
    (h0 : 0 < B.length)
    (hclients : base.clients = [])
    (hdd : base.rx.dup_detect = false)
    (happi : base.rx.app.index = 0)
    (hcs : cs_ok (rxSt base st pd ti B acc mcs) = true) :
    (accept_msg (rxSt base st pd ti B acc mcs)).rx.app.data = B ∧
    rx_active (accept_msg (rxSt base st pd ti B acc mcs)).rx = false ∧
    (accept_msg (rxSt base st pd ti B acc mcs)).tty_in.index = ti ∧
    (accept_msg (rxSt base st pd ti B acc mcs)).tty_in.data = base.tty_in.data := by
  have happlen : (rxSt base st pd ti B acc mcs).rx.app.len = B.length := rfl
  by_cases hB6 : B.length < 6
  · have hlt : (rxSt base st pd ti B acc mcs).rx.app.len < 6 := by
      rw [happlen]
      exact hB6
    have heq : accept_msg (rxSt base st pd ti B acc mcs)
        = rx_nak { rxSt base st pd ti B acc mcs with
            dcnts.runts := (rxSt base st pd ti B acc mcs).dcnts.runts + 1 } := by
      unfold accept_msg
      rw [if_pos hlt]
    rw [heq]
    rw [(rx_nak_proj _).1, (rx_nak_proj _).2.1]
    rw [show (rx_nak { rxSt base st pd ti B acc mcs with
          dcnts.runts := (rxSt base st pd ti B acc mcs).dcnts.runts + 1 }).tty_in
        = ({ rxSt base st pd ti B acc mcs with
              dcnts.runts := (rxSt base st pd ti B acc mcs).dcnts.runts + 1 } : CONN).tty_in
        from (rx_nak_proj _).2.2]
    exact ⟨rfl, rfl, rfl, rfl⟩
  · have hge : ¬((rxSt base st pd ti B acc mcs).rx.app.len < 6) := by
      rw [happlen]
      exact hB6
    have hdd2 : (rxSt base st pd ti B acc mcs).rx.dup_detect = false := hdd
    have hmd : msg_dup (rxSt base st pd ti B acc mcs)
        = (rxSt base st pd ti B acc mcs, false) := by
      unfold msg_dup
      rw [hdd2]
      rfl
    have heq : accept_msg (rxSt base st pd ti B acc mcs)
        = client_msg_rx { rxSt base st pd ti B acc mcs with
            dcnts.msg_rx := (rxSt base st pd ti B acc mcs).dcnts.msg_rx + 1,
            rx.state := RX_PEND } := by
      unfold accept_msg
      rw [if_neg hge, hcs, hmd]
      simp
    rw [heq]
    have happx : ({ rxSt base st pd ti B acc mcs with
        dcnts.msg_rx := (rxSt base st pd ti B acc mcs).dcnts.msg_rx + 1,
        rx.state := RX_PEND } : CONN).rx.app
        = (⟨base.rx.app.max, B, 0⟩ : BUF) := by
      rw [show ({ rxSt base st pd ti B acc mcs with
          dcnts.msg_rx := (rxSt base st pd ti B acc mcs).dcnts.msg_rx + 1,
          rx.state := RX_PEND } : CONN).rx.app
          = (⟨base.rx.app.max, B, base.rx.app.index⟩ : BUF) from rfl, happi]
    have hgb : buf_get_byte ({ rxSt base st pd ti B acc mcs with
        dcnts.msg_rx := (rxSt base st pd ti B acc mcs).dcnts.msg_rx + 1,
        rx.state := RX_PEND } : CONN).rx.app
        = some (B.getD 0 0, (⟨base.rx.app.max, B, 1⟩ : BUF)) := by
      rw [happx]
      unfold buf_get_byte
      rw [if_neg (by show ¬(B.length = 0); omega)]
    have hcl2 : (rxSt base st pd ti B acc mcs).clients = [] := hclients
    unfold client_msg_rx
    rw [hgb]
    simp only [find_addr, hcl2, List.findIdx?_nil]
    rw [(rx_ack_proj _).1, (rx_ack_proj _).2.1]
    refine ⟨rfl, rfl, ?_, ?_⟩ <;> (rw [(rx_ack_proj _).2.2]; rfl)

theorem rx_feed_frame (u : Bool) (B : List Nat) (h0 : 0 < B.length)
    (hlen : B.length ≤ 236) (hb : ∀ b ∈ B, b < 256) :
    (rx_feed u (encode_df1_frame u B)).rx.app.data = B := by
  have hstuff := stuff_length_le B
  have hFlen : (encode_df1_frame u B).length
      = (stuff B).length + ((checksum_bytes u B).length + 4) := by
    simp [encode_df1_frame]
    omega
  have hcsl1 : 1 ≤ (checksum_bytes u B).length := by
    cases u <;> simp [checksum_bytes]
  have h1 : rx_feed u (encode_df1_frame u B)
      = parse_tty_loop 4
          ((rxConn u (encode_df1_frame u B)).tty_in.len - (rxConn u (encode_df1_frame u B)).tty_in.index + 1)
          (pSt (rxConn u (encode_df1_frame u B)) false 0) := rfl
  rw [h1]
  have hdataF : (rxConn u (encode_df1_frame u B)).tty_in.data = encode_df1_frame u B := rfl
  have hg1 : (rxConn u (encode_df1_frame u B)).tty_in.len - (rxConn u (encode_df1_frame u B)).tty_in.index + 1
      = ((((stuff B).length + ((checksum_bytes u B).length + 2)) + 1) + 1) + 1 := by
    show (encode_df1_frame u B).length - 0 + 1 = _
    rw [hFlen]
    omega
  rw [hg1]
  have hact0 : rx_active (rxConn u (encode_df1_frame u B)).rx = false := rfl
  have hti0 : 0 < (rxConn u (encode_df1_frame u B)).tty_in.data.length := by
    rw [hdataF, hFlen]
    omega
  have hb0 : (rxConn u (encode_df1_frame u B)).tty_in.data.getD 0 0 = SYM_DLE := rfl
  rw [parse_step_dle 4 _ (rxConn u (encode_df1_frame u B)) 0 hact0 hti0 hb0]
  have hti1 : 0 + 1 < (rxConn u (encode_df1_frame u B)).tty_in.data.length := by
    rw [hdataF, hFlen]
    omega
  have hb1 : (rxConn u (encode_df1_frame u B)).tty_in.data.getD (0 + 1) 0 = SYM_STX := rfl
  rw [parse_step_stx 4 _ (rxConn u (encode_df1_frame u B)) (0 + 1) hact0 hti1 hb1]
  rw [rx_msg_entry 4 (rxConn u (encode_df1_frame u B)) (0 + 1 + 1) rfl rfl rfl]
  rw [show (rxConn u (encode_df1_frame u B)).rx.msg_cs = 0 from rfl]
  have hg2 : (rxConn u (encode_df1_frame u B)).tty_in.data.length - (0 + 1 + 1)
      = (stuff B).length + ((checksum_bytes u B).length + 2) := by
    rw [hdataF, hFlen]
    omega
  rw [hg2]
  rw [show (0 + 1 + 1 : Nat) = ([SYM_DLE, SYM_STX] : List Nat).length from rfl]
  have hdata2 : (pSt (rxConn u (encode_df1_frame u B)) false ([SYM_DLE, SYM_STX] : List Nat).length).tty_in.data
      = ([SYM_DLE, SYM_STX] ++ stuff B) ++ ([SYM_DLE, SYM_ETX] ++ checksum_bytes u B) := by
    show encode_df1_frame u B = _
    simp [encode_df1_frame]
  have hroomB : ([] : List Nat).length + B.length ≤ (pSt (rxConn u (encode_df1_frame u B)) false ([SYM_DLE, SYM_STX] : List Nat).length).rx.app.max := by
    show ([] : List Nat).length + B.length ≤ 512
    simp
    omega
  rw [rx_app_run 4 B ((checksum_bytes u B).length + 2) (pSt (rxConn u (encode_df1_frame u B)) false ([SYM_DLE, SYM_STX] : List Nat).length)
      [SYM_DLE, SYM_STX] ([SYM_DLE, SYM_ETX] ++ checksum_bytes u B) [] 0 0
      hdata2 hb hroomB]
  rw [show ([] : List Nat) ++ B = B from by simp]
  rw [show (pSt (rxConn u (encode_df1_frame u B)) false ([SYM_DLE, SYM_STX] : List Nat).length).use_crc = u from rfl]
  rw [show (([SYM_DLE, SYM_STX] : List Nat).length + (stuff B).length : Nat)
      = 2 + (stuff B).length from by simp_arith]
  rw [show ((checksum_bytes u B).length + 2 : Nat)
      = (((checksum_bytes u B).length + 1) + 1 : Nat) from by omega]
  have hlen2 : (pSt (rxConn u (encode_df1_frame u B)) false ([SYM_DLE, SYM_STX] : List Nat).length).tty_in.data.length
      = (stuff B).length + ((checksum_bytes u B).length + 4) := by
    show (encode_df1_frame u B).length = _
    exact hFlen
  have htiT1 : (2 + (stuff B).length) < (pSt (rxConn u (encode_df1_frame u B)) false ([SYM_DLE, SYM_STX] : List Nat).length).tty_in.data.length := by
    rw [hlen2]
    omega
  have hbT1 : (pSt (rxConn u (encode_df1_frame u B)) false ([SYM_DLE, SYM_STX] : List Nat).length).tty_in.data.getD (2 + (stuff B).length) 0 = SYM_DLE := by
    rw [hdata2, show ((2 + (stuff B).length) : Nat)
        = ([SYM_DLE, SYM_STX] ++ stuff B : List Nat).length + 0 from by simp_arith]
    exact getD_append_off _ _ 0
  rw [rx_step_dle1 4 _ (pSt (rxConn u (encode_df1_frame u B)) false ([SYM_DLE, SYM_STX] : List Nat).length) (2 + (stuff B).length) _ _ _ htiT1 hbT1]
  have htiT2 : (2 + (stuff B).length) + 1 < (pSt (rxConn u (encode_df1_frame u B)) false ([SYM_DLE, SYM_STX] : List Nat).length).tty_in.data.length := by
    rw [hlen2]
    omega
  have hbT2 : (pSt (rxConn u (encode_df1_frame u B)) false ([SYM_DLE, SYM_STX] : List Nat).length).tty_in.data.getD ((2 + (stuff B).length) + 1) 0 = SYM_ETX := by
    rw [hdata2, show ((2 + (stuff B).length) + 1 : Nat)
        = ([SYM_DLE, SYM_STX] ++ stuff B : List Nat).length + 1 from by simp_arith]
    exact getD_append_off _ _ 1
  rw [rx_step_term 4 _ (pSt (rxConn u (encode_df1_frame u B)) false ([SYM_DLE, SYM_STX] : List Nat).length) ((2 + (stuff B).length) + 1) _ _ _ htiT2 hbT2]
  rw [show (pSt (rxConn u (encode_df1_frame u B)) false ([SYM_DLE, SYM_STX] : List Nat).length).use_crc = u from rfl]
  have hdata3 : (pSt (rxConn u (encode_df1_frame u B)) false ([SYM_DLE, SYM_STX] : List Nat).length).tty_in.data
      = (([SYM_DLE, SYM_STX] ++ stuff B) ++ [SYM_DLE, SYM_ETX]) ++ checksum_bytes u B := by
    show encode_df1_frame u B = _
    simp [encode_df1_frame]
  have htiC0 : (2 + (stuff B).length) + 1 + 1 < (pSt (rxConn u (encode_df1_frame u B)) false ([SYM_DLE, SYM_STX] : List Nat).length).tty_in.data.length := by
    rw [hlen2]
    omega
  have hbC0 : (pSt (rxConn u (encode_df1_frame u B)) false ([SYM_DLE, SYM_STX] : List Nat).length).tty_in.data.getD ((2 + (stuff B).length) + 1 + 1) 0
      = (checksum_bytes u B).getD 0 0 := by
    rw [hdata3, show ((2 + (stuff B).length) + 1 + 1 : Nat)
        = (([SYM_DLE, SYM_STX] ++ stuff B) ++ [SYM_DLE, SYM_ETX] : List Nat).length + 0
        from by simp_arith]
    exact getD_append_off _ _ 0
  have hbC1 : (pSt (rxConn u (encode_df1_frame u B)) false ([SYM_DLE, SYM_STX] : List Nat).length).tty_in.data.getD ((2 + (stuff B).length) + 1 + 1 + 1) 0
      = (checksum_bytes u B).getD 1 0 := by
    rw [hdata3, show ((2 + (stuff B).length) + 1 + 1 + 1 : Nat)
        = (([SYM_DLE, SYM_STX] ++ stuff B) ++ [SYM_DLE, SYM_ETX] : List Nat).length + 1
        from by simp_arith]
    exact getD_append_off _ _ 1
  cases u with
  | false =>
    have hcsF : checksum_bytes false B = [bcc_out (bcc_fold 0 B)] := by
      simp [checksum_bytes]
    rw [hcsF] at hbC0 ⊢
    simp only [List.getD_cons_zero] at hbC0
    simp only [Bool.false_eq_true, if_false]
    rw [show ([bcc_out (bcc_fold 0 B)] : List Nat).length = 0 + 1 from rfl]
    rw [rx_step_cs1_bcc 4 0 (pSt (rxConn false (encode_df1_frame false B)) false ([SYM_DLE, SYM_STX] : List Nat).length) true ((2 + (stuff B).length) + 1 + 1) B (bcc_fold 0 B) 0
        (bcc_out (bcc_fold 0 B)) htiC0 hbC0 rfl]
    have hcs : cs_ok (rxSt (pSt (rxConn false (encode_df1_frame false B)) false ([SYM_DLE, SYM_STX] : List Nat).length) RX_CS1 true ((2 + (stuff B).length) + 1 + 1 + 1) B
        (bcc_fold 0 B) (bcc_out (bcc_fold 0 B))) = true := by
      unfold cs_ok
      rw [show (rxSt (pSt (rxConn false (encode_df1_frame false B)) false ([SYM_DLE, SYM_STX] : List Nat).length) RX_CS1 true ((2 + (stuff B).length) + 1 + 1 + 1) B
          (bcc_fold 0 B) (bcc_out (bcc_fold 0 B))).use_crc = false from rfl]
      simp
      rfl
    obtain ⟨f1, f2, f3, f4⟩ := accept_stage (pSt (rxConn false (encode_df1_frame false B)) false ([SYM_DLE, SYM_STX] : List Nat).length) RX_CS1 true ((2 + (stuff B).length) + 1 + 1 + 1) B
      (bcc_fold 0 B) (bcc_out (bcc_fold 0 B)) h0 rfl rfl rfl hcs
    rw [parse_tty_done 4 _ _ f2 (by
      show _ = (accept_msg _).tty_in.data.length
      rw [f3, f4]
      rw [show (pSt (rxConn false (encode_df1_frame false B)) false ([SYM_DLE, SYM_STX] : List Nat).length).tty_in.data.length
          = (stuff B).length + (([bcc_out (bcc_fold 0 B)] : List Nat).length + 4) from by
        rw [show (pSt (rxConn false (encode_df1_frame false B)) false ([SYM_DLE, SYM_STX] : List Nat).length).tty_in.data = encode_df1_frame false B from rfl]
        rw [show (encode_df1_frame false B).length
            = (stuff B).length + ((checksum_bytes false B).length + 4) from by
          simp [encode_df1_frame]
          omega]
        rw [hcsF]]
      simp
      omega)]
    exact f1
  | true =>
    have hcsT : checksum_bytes true B
        = [crc_fold 0 (B ++ [SYM_ETX]) % 256, crc_fold 0 (B ++ [SYM_ETX]) / 256 % 256] := by
      simp [checksum_bytes]
    rw [hcsT] at hbC0 hbC1 ⊢
    simp only [List.getD_cons_zero, List.getD_cons_succ] at hbC0 hbC1
    simp only [if_true]
    have htiC1 : (2 + (stuff B).length) + 1 + 1 + 1 < (pSt (rxConn true (encode_df1_frame true B)) false ([SYM_DLE, SYM_STX] : List Nat).length).tty_in.data.length := by
      rw [show (pSt (rxConn true (encode_df1_frame true B)) false ([SYM_DLE, SYM_STX] : List Nat).length).tty_in.data.length
          = (stuff B).length + ((checksum_bytes true B).length + 4) from hlen2]
      rw [hcsT]
      simp
      omega
    rw [show ([crc_fold 0 (B ++ [SYM_ETX]) % 256,
        crc_fold 0 (B ++ [SYM_ETX]) / 256 % 256] : List Nat).length = (0 + 1) + 1 from rfl]
    rw [rx_step_cs1_crc 4 (0 + 1) (pSt (rxConn true (encode_df1_frame true B)) false ([SYM_DLE, SYM_STX] : List Nat).length) true ((2 + (stuff B).length) + 1 + 1) B
        (CRC_ADD (crc_fold 0 B) SYM_ETX) 0 (crc_fold 0 (B ++ [SYM_ETX]) % 256)
        htiC0 hbC0 rfl]
    rw [rx_step_cs2 4 0 (pSt (rxConn true (encode_df1_frame true B)) false ([SYM_DLE, SYM_STX] : List Nat).length) true ((2 + (stuff B).length) + 1 + 1 + 1) B
        (CRC_ADD (crc_fold 0 B) SYM_ETX) (crc_fold 0 (B ++ [SYM_ETX]) % 256)
        (crc_fold 0 (B ++ [SYM_ETX]) / 256 % 256) htiC1 hbC1]
    have hclt : crc_fold 0 (B ++ [SYM_ETX]) < 65536 := by
      refine crc_fold_lt _ 0 (by omega) ?_
      intro b hbb
      rcases List.mem_append.1 hbb with hbl | hbr
      · have := hb b hbl
        omega
      · simp [SYM_ETX] at hbr
        omega
    have hmcseq : (crc_fold 0 (B ++ [SYM_ETX]) % 256
        + crc_fold 0 (B ++ [SYM_ETX]) / 256 % 256 * 256) % 65536
        = crc_fold 0 (B ++ [SYM_ETX]) := by
      omega
    rw [hmcseq, ← crc_fold_snoc B 0 SYM_ETX]
    have hcs : cs_ok (rxSt (pSt (rxConn true (encode_df1_frame true B)) false ([SYM_DLE, SYM_STX] : List Nat).length) RX_CS2 true ((2 + (stuff B).length) + 1 + 1 + 1 + 1) B
        (crc_fold 0 (B ++ [SYM_ETX])) (crc_fold 0 (B ++ [SYM_ETX]))) = true := by
      unfold cs_ok
      rw [show (rxSt (pSt (rxConn true (encode_df1_frame true B)) false ([SYM_DLE, SYM_STX] : List Nat).length) RX_CS2 true ((2 + (stuff B).length) + 1 + 1 + 1 + 1) B
          (crc_fold 0 (B ++ [SYM_ETX])) (crc_fold 0 (B ++ [SYM_ETX]))).use_crc = true
          from rfl]
      simp
      rfl
    obtain ⟨f1, f2, f3, f4⟩ := accept_stage (pSt (rxConn true (encode_df1_frame true B)) false ([SYM_DLE, SYM_STX] : List Nat).length) RX_CS2 true ((2 + (stuff B).length) + 1 + 1 + 1 + 1) B
      (crc_fold 0 (B ++ [SYM_ETX])) (crc_fold 0 (B ++ [SYM_ETX])) h0 rfl rfl rfl hcs
    rw [parse_tty_done 4 _ _ f2 (by
      show _ = (accept_msg _).tty_in.data.length
      rw [f3, f4]
      rw [show (pSt (rxConn true (encode_df1_frame true B)) false ([SYM_DLE, SYM_STX] : List Nat).length).tty_in.data.length
          = (stuff B).length + ((checksum_bytes true B).length + 4) from hlen2]
      rw [hcsT]
      simp
      omega)]
    exact f1

/-- C1: for every application payload `B` with `0 < |B| <= 236` and byte
values below 256, the frame assembled by the transmitter (`tx_msg` via the
arbitrator: `DLE STX`, DLE-stuffed payload, `DLE ETX`, checksum) and fed
through the receiver (`parse_tty_data` activation plus the
`rx_msg`/`add_to_app` state machine) reassembles exactly `B` in the
receiver's application buffer, in both CRC and BCC checksum modes. -/

theorem df1_frame_roundtrip (u : Bool) (B : List Nat) (h0 : 0 < B.length)
    (hlen : B.length ≤ 236) (hb : ∀ b ∈ B, b < 256) :
    (rx_feed u ((tx_submit u B).tty_out.data)).rx.app.data = B := by
  rw [(tx_submit_spec u B hlen hb).1]
  exact rx_feed_frame u B h0 hlen hb

/-- Witness for `df1_frame_roundtrip`: the 7-byte payload
`05 00 06 00 42 10 07` (with an embedded DLE) in both checksum modes. -/

theorem df1_frame_roundtrip_witness :
    (rx_feed true ((tx_submit true [5, 0, 6, 0, 66, 16, 7]).tty_out.data)).rx.app.data
      = [5, 0, 6, 0, 66, 16, 7] ∧
    (rx_feed false ((tx_submit false [5, 0, 6, 0, 66, 16, 7]).tty_out.data)).rx.app.data
      = [5, 0, 6, 0, 66, 16, 7] :=
  ⟨df1_frame_roundtrip true _ (by decide) (by decide) (by decide),
   df1_frame_roundtrip false _ (by decide) (by decide) (by decide)⟩

theorem buf_append_byte_le (b : BUF) (x : Nat) (h : b.len ≤ b.max) :
    (buf_append_byte b x).1.len ≤ b.max ∧ (buf_append_byte b x).1.max = b.max := by
  unfold buf_append_byte
  split
  · exact ⟨h, rfl⟩
  · constructor
    · simp only [BUF.len, List.length_append, List.length_cons, List.length_nil]
      unfold BUF.len at h
      rename_i hne
      unfold BUF.len at hne
      omega
    · rfl

theorem buf_append_word_le (b : BUF) (x : Nat) (h : b.len ≤ b.max) :
    (buf_append_word b x).1.len ≤ b.max ∧ (buf_append_word b x).1.max = b.max := by
  unfold buf_append_word
  split
  · exact ⟨h, rfl⟩
  · constructor
    · simp only [BUF.len, List.length_append, List.length_cons, List.length_nil]
      rename_i hne
      unfold BUF.len at hne
      omega
    · rfl

theorem tx_fold_le (u : Bool) (bs : List Nat) :
    ∀ (m : BUF) (crc bcc : Nat) (ov : Bool), m.len ≤ m.max →
    (tx_fold u bs m crc bcc ov).1.len ≤ m.max ∧
    (tx_fold u bs m crc bcc ov).1.max = m.max := by
  induction bs with
  | nil => intro m crc bcc ov h; exact ⟨h, rfl⟩
  | cons b bs ih =>
    intro m crc bcc ov h
    simp only [tx_fold]
    obtain ⟨h1, h2⟩ := buf_append_byte_le m b h
    by_cases hd : b = SYM_DLE
    · rw [if_pos hd]
      obtain ⟨h3, h4⟩ := buf_append_byte_le (buf_append_byte m b).1 SYM_DLE (by omega)
      obtain ⟨h5, h6⟩ := ih (buf_append_byte (buf_append_byte m b).1 SYM_DLE).1
        (if u = true then CRC_ADD crc b else crc)
        (if u = true then bcc else (bcc + b) % 256)
        (ov || (buf_append_byte m b).2
            || (buf_append_byte (buf_append_byte m b).1 SYM_DLE).2)
        (by omega)
      omega
    · rw [if_neg hd]
      obtain ⟨h5, h6⟩ := ih ((buf_append_byte m b).1, false).1
        (if u = true then CRC_ADD crc b else crc)
        (if u = true then bcc else (bcc + b) % 256)
        (ov || (buf_append_byte m b).2 || ((buf_append_byte m b).1, false).2)
        (by exact le_of_le_of_eq h1 h2.symm)
      have h7 : ((buf_append_byte m b).1, false).1.max = m.max := h2
      have h8 : ((buf_append_byte m b).1, false).1.len ≤ m.max := h1
      omega

/-- C9: when assembling a frame in `tx_msg` overflows the transmitter's
message buffer, the message is not dropped: the originating client is still
recorded, the assembled (truncated) message never exceeds the buffer
capacity, and whenever the TTY output buffer can hold it, the frame is
copied there, the transmitter enters `TX_PEND_MSG_TX` and an attempt is
counted; only when the TTY output buffer cannot hold the frame does a
failure `MSG_NAK` byte reach the originating client (whose transmission is
failed and counted). -/

theorem tx_msg_overflow_spec (fu : Nat) (conn : CONN) (i : Nat) :
    (tx_assemble conn i).tx.client = some i ∧
    (conn.tx.msg.len ≤ conn.tx.msg.max →
      (tx_assemble conn i).tx.msg.len ≤ conn.tx.msg.max) ∧
    (conn.tty_out.len + (tx_assemble conn i).tx.msg.len ≤ conn.tty_out.max →
      tx_msg (fu + 2) conn i
        = { tx_assemble conn i with
              tx.state := TX_PEND_MSG_TX,
              tty_out := { conn.tty_out with
                data := conn.tty_out.data ++ (tx_assemble conn i).tx.msg.data },
              dcnts.tx_attempts := conn.dcnts.tx_attempts + 1 }) ∧
    (conn.tty_out.max < conn.tty_out.len + (tx_assemble conn i).tx.msg.len →
      i < conn.clients.length →
      ((tx_msg 3 conn i).clients.getD i default).sock_out.data
        = (buf_append_byte
            ((conn.clients.getD i default).sock_out) MSG_NAK).1.data ∧
      (tx_msg 3 conn i).tty_out.data = conn.tty_out.data ∧
      (tx_msg 3 conn i).tx.state = TX_IDLE ∧
      ((tx_msg 3 conn i).clients.getD i default).dcnts.tx_fail
        = (conn.clients.getD i default).dcnts.tx_fail + 1) := by
  refine ⟨rfl, ?_, ?_, ?_⟩
  · intro h
    unfold tx_assemble
    have h1 := buf_append_byte_le conn.tx.msg SYM_DLE h
    have h2 := buf_append_byte_le (buf_append_byte conn.tx.msg SYM_DLE).1 SYM_STX
      (by omega)
    have h3 := tx_fold_le conn.use_crc
      (List.drop ((conn.clients.getD i default).df1_tx.index)
        ((conn.clients.getD i default).df1_tx.data))
      (buf_append_byte (buf_append_byte conn.tx.msg SYM_DLE).1 SYM_STX).1
      0 0 ((buf_append_byte conn.tx.msg SYM_DLE).2
            || (buf_append_byte (buf_append_byte conn.tx.msg SYM_DLE).1 SYM_STX).2)
      (by omega)
    set r := tx_fold conn.use_crc
      (List.drop ((conn.clients.getD i default).df1_tx.index)
        ((conn.clients.getD i default).df1_tx.data))
      (buf_append_byte (buf_append_byte conn.tx.msg SYM_DLE).1 SYM_STX).1
      0 0 ((buf_append_byte conn.tx.msg SYM_DLE).2
            || (buf_append_byte (buf_append_byte conn.tx.msg SYM_DLE).1 SYM_STX).2)
      with hr
    have h4 := buf_append_byte_le r.1 SYM_DLE (by omega)
    have h5 := buf_append_byte_le (buf_append_byte r.1 SYM_DLE).1 SYM_ETX (by omega)
    have h6w := buf_append_word_le (buf_append_byte (buf_append_byte r.1 SYM_DLE).1 SYM_ETX).1
      (CRC_ADD r.2.1 SYM_ETX) (by omega)
    have h6b := buf_append_byte_le (buf_append_byte (buf_append_byte r.1 SYM_DLE).1 SYM_ETX).1
      (bcc_out r.2.2.1) (by omega)
    show (if (updClient conn i
        (fun c => { c with df1_tx.index := c.df1_tx.data.length })).use_crc = true then
        buf_append_word (buf_append_byte (buf_append_byte r.1 SYM_DLE).1 SYM_ETX).1
          (CRC_ADD r.2.1 SYM_ETX)
      else buf_append_byte (buf_append_byte (buf_append_byte r.1 SYM_DLE).1 SYM_ETX).1
          (bcc_out r.2.2.1)).1.len ≤ conn.tx.msg.max
    split
    · omega
    · omega
  · intro h
    have e : (tx_assemble conn i).tty_out = conn.tty_out := rfl
    have hroom : (tx_assemble conn i).tty_out.len + (tx_assemble conn i).tx.msg.len
        ≤ (tx_assemble conn i).tty_out.max := by
      rw [e]
      exact h
    have h1 : tx_msg (fu + 2) conn i
        = { send_msg (fu + 1) (tx_assemble conn i) with
              dcnts.tx_attempts :=
                (send_msg (fu + 1) (tx_assemble conn i)).dcnts.tx_attempts + 1 } := rfl
    rw [h1, send_msg_fits fu (tx_assemble conn i) hroom]
    rfl
  · intro h hi
    have e : (tx_assemble conn i).tty_out = conn.tty_out := rfl
    have hover : (tx_assemble conn i).tty_out.max
        < (tx_assemble conn i).tty_out.len + (tx_assemble conn i).tx.msg.len := by
      rw [e]
      exact h
    have h1 : tx_msg 3 conn i
        = { send_msg (1 + 1) (tx_assemble conn i) with
              dcnts.tx_attempts :=
                (send_msg (1 + 1) (tx_assemble conn i)).dcnts.tx_attempts + 1 } := rfl
    rw [h1, send_msg_overflow 1 (tx_assemble conn i) hover]
    have h2 : client_msg_tx_fail 1
        { tx_assemble conn i with tx := flush_msg (tx_assemble conn i).tx }
        = updClient { tx_assemble conn i with tx := flush_msg (tx_assemble conn i).tx }
            i (fun c =>
              { c with sock_out := (buf_append_byte c.sock_out MSG_NAK).1,
                       state := CLIENT_IDLE,
                       dcnts.tx_fail := c.dcnts.tx_fail + 1 }) := rfl
    rw [h2]
    have hcl : ({ tx_assemble conn i with
        tx := flush_msg (tx_assemble conn i).tx } : CONN).clients
        = listModify conn.clients i
            (fun c => { c with df1_tx.index := c.df1_tx.data.length }) := rfl
    have hmidlen : i < (listModify conn.clients i
        (fun c => { c with df1_tx.index := c.df1_tx.data.length })).length := by
      rw [listModify_length]
      exact hi
    refine ⟨?_, rfl, rfl, ?_⟩
    · show ((listModify (listModify conn.clients i
          (fun c => { c with df1_tx.index := c.df1_tx.data.length })) i
          (fun c => { c with sock_out := (buf_append_byte c.sock_out MSG_NAK).1,
                             state := CLIENT_IDLE,
                             dcnts.tx_fail := c.dcnts.tx_fail + 1 })).getD i
            default).sock_out.data = _
      rw [listModify_getD_self2 conn.clients i _ _ default hi]
    · show ((listModify (listModify conn.clients i
          (fun c => { c with df1_tx.index := c.df1_tx.data.length })) i
          (fun c => { c with sock_out := (buf_append_byte c.sock_out MSG_NAK).1,
                             state := CLIENT_IDLE,
                             dcnts.tx_fail := c.dcnts.tx_fail + 1 })).getD i
            default).dcnts.tx_fail = _
      rw [listModify_getD_self2 conn.clients i _ _ default hi]

/-- Witness for `tx_msg_overflow_spec`: a 10-byte payload whose 15-byte
frame overflows an 8-byte transmitter message buffer. With an 8-byte TTY
output buffer the truncated frame is still transmitted (`TX_PEND_MSG_TX`,
no NAK); with a 4-byte TTY output buffer the client receives the failure
NAK byte `0x15` and the transmitter idles. -/

theorem tx_msg_overflow_spec_witness :
    (tx_msg (0 + 2) (c9Conn 8 8 [1, 2, 3, 4, 5, 6, 7, 8, 9, 10]) 0).tty_out.data
      = [16, 2, 1, 2, 3, 4, 5, 6] ∧
    (tx_msg (0 + 2) (c9Conn 8 8 [1, 2, 3, 4, 5, 6, 7, 8, 9, 10]) 0).tx.state
      = TX_PEND_MSG_TX ∧
    ((tx_msg 3 (c9Conn 8 4 [1, 2, 3, 4, 5, 6, 7, 8, 9, 10]) 0).clients.getD 0
        default).sock_out.data = [21] ∧
    (tx_msg 3 (c9Conn 8 4 [1, 2, 3, 4, 5, 6, 7, 8, 9, 10]) 0).tx.state = TX_IDLE := by
  have hA := (tx_msg_overflow_spec 0 (c9Conn 8 8 [1, 2, 3, 4, 5, 6, 7, 8, 9, 10]) 0).2.2.1
    (by decide)
  have hB := (tx_msg_overflow_spec 0 (c9Conn 8 4 [1, 2, 3, 4, 5, 6, 7, 8, 9, 10]) 0).2.2.2
    (by decide) (by decide)
  refine ⟨?_, ?_, ?_, ?_⟩
  · rw [hA]
    decide
  · rw [hA]
  · exact hB.1.trans (by decide)
  · exact hB.2.2.1

end Libpccc
